import Mathlib

/-!
Shallow embedding of `src/hybrid/models/hybrid_res_unet_bp.py` (PlaqueDetection).

The network only ever transforms tensor *shapes* in ways the claims talk about,
so tensors are embedded by their shapes.  Every layer becomes a function from
shapes to `Option` shapes: `none` models the runtime error PyTorch raises on a
dimension mismatch (convolution kernel larger than the padded input,
concatenation of unequal spatial sizes, out-of-range slice index, addition of
unequal shapes, channel-count mismatch).

Residual blocks are embedded as small symbolic expressions (`T3`, `T2`) built
exactly in the order of the statements of the Python `forward` methods; a shape
evaluator runs them.  The expression also records the order of the operations,
which is what claim C8 is about.
-/

/-- Shape of a rank-5 tensor (batch, channel, depth, height, width). -/
structure Shape5 where
  n : Nat
  c : Nat
  d : Nat
  h : Nat
  w : Nat
deriving DecidableEq, Repr

/-- Shape of a rank-4 tensor (batch, channel, height, width). -/
structure Shape4 where
  n : Nat
  c : Nat
  h : Nat
  w : Nat
deriving DecidableEq, Repr

/-- Output size of one convolution dimension: input `i`, kernel `k`, stride `s`,
padding `p`.  PyTorch raises when the padded input is smaller than the kernel;
otherwise the output size is `(i + 2*p - k) / s + 1` (integer division). -/
def convDim (i k s p : Nat) : Option Nat :=
  if k ≤ i + 2 * p then some ((i + 2 * p - k) / s + 1) else none

/-- Shape semantics of `nn.Conv3d` with kernel size 3 in every dimension (the
only 3D kernel used in the file: `conv_333`, the downsample projection and
`ResUNet.conv1` all have `kernel_size=3`).  `pad` is the (depth, height, width)
padding. -/
def conv3Shape (inChannels outChannels s : Nat) (pad : Nat × Nat × Nat)
    (x : Shape5) : Option Shape5 :=
  if x.c = inChannels then
    match convDim x.d 3 s pad.1, convDim x.h 3 s pad.2.1, convDim x.w 3 s pad.2.2 with
    | some d, some h, some w => some ⟨x.n, outChannels, d, h, w⟩
    | _, _, _ => none
  else none

/-- Shape semantics of `nn.Conv2d` with kernel `k`, stride `s`, padding `p`
(used with k=3,p=1 by `conv_33`, and k=1,p=0 by the 2D downsample projection
and the final layer `fl`). -/
def conv2Shape (inChannels outChannels k s p : Nat) (x : Shape4) : Option Shape4 :=
  if x.c = inChannels then
    match convDim x.h k s p, convDim x.w k s p with
    | some h, some w => some ⟨x.n, outChannels, h, w⟩
    | _, _ => none
  else none

/-- Shape semantics of `nn.ConvTranspose2d` with kernel `k`, stride `s`,
padding `p`: output size `(i - 1) * s + k - 2 * p` per spatial dimension
(UpConv uses k=2, s=2, p=0). -/
def transConv2Shape (inChannels outChannels k s p : Nat) (x : Shape4) : Option Shape4 :=
  if x.c = inChannels ∧ 1 ≤ x.h ∧ 1 ≤ x.w then
    some ⟨x.n, outChannels, (x.h - 1) * s + k - 2 * p, (x.w - 1) * s + k - 2 * p⟩
  else none

/-- Shape semantics of `skip[:, :, i]`: selecting index `i` along the depth
axis of a rank-5 tensor drops that axis; an out-of-range index raises. -/
def slice5 (x : Shape5) (i : Nat) : Option Shape4 :=
  if i < x.d then some ⟨x.n, x.c, x.h, x.w⟩ else none

/-- Shape semantics of `torch.cat([a, b], 1)`: all dimensions but the channel
dimension must agree; channel counts add, `a` first. -/
def cat2 (a b : Shape4) : Option Shape4 :=
  if a.n = b.n ∧ a.h = b.h ∧ a.w = b.w then some ⟨a.n, a.c + b.c, a.h, a.w⟩ else none

/-- The kinds of operations a residual block performs, in the order performed.
`conv s` records the stride of the convolution. -/
inductive Op
| norm
| act
| conv (s : Nat)
| dropout
| add
deriving DecidableEq, Repr

/-- Symbolic 3D tensor expression: the dataflow of `ResBlock3D.forward`.
`conv` is the kernel-3 `conv_333` with its stride and (d,h,w) padding. -/
inductive T3
| x
| bn (features : Nat) (t : T3)
| relu (t : T3)
| conv (inChannels outChannels s : Nat) (pad : Nat × Nat × Nat) (t : T3)
| dp (t : T3)
| add (a b : T3)
deriving DecidableEq, Repr

/-- Shape evaluator for `T3` on an input shape.  `bn` (BatchNorm3d) checks the
channel count and keeps the shape; `relu` and `dp` (Dropout3d) keep the shape;
`add` (the in-place `out += residual`) requires equal shapes. -/
def T3.shape : T3 → Shape5 → Option Shape5
| T3.x, s => some s
| T3.bn f t, s =>
    match t.shape s with
    | some u => if u.c = f then some u else none
    | none => none
| T3.relu t, s => t.shape s
| T3.conv i o st pad t, s =>
    match t.shape s with
    | some u => conv3Shape i o st pad u
    | none => none
| T3.dp t, s => t.shape s
| T3.add a b, s =>
    match a.shape s, b.shape s with
    | some u, some v => if u = v then some u else none
    | _, _ => none

/-- The operations of a `T3` expression in execution order. -/
def T3.ops : T3 → List Op
| T3.x => []
| T3.bn _ t => t.ops ++ [Op.norm]
| T3.relu t => t.ops ++ [Op.act]
| T3.conv _ _ st _ t => t.ops ++ [Op.conv st]
| T3.dp t => t.ops ++ [Op.dropout]
| T3.add a b => a.ops ++ b.ops ++ [Op.add]

/-- Symbolic 2D tensor expression: the dataflow of `ResBlock2D.forward`.
`conv` is an `nn.Conv2d` with kernel `k`, stride `s`, padding `p`. -/
inductive T2
| x
| bn (features : Nat) (t : T2)
| relu (t : T2)
| conv (inChannels outChannels k s p : Nat) (t : T2)
| dp (t : T2)
| add (a b : T2)
deriving DecidableEq, Repr

/-- Shape evaluator for `T2` on an input shape. -/
def T2.shape : T2 → Shape4 → Option Shape4
| T2.x, s => some s
| T2.bn f t, s =>
    match t.shape s with
    | some u => if u.c = f then some u else none
    | none => none
| T2.relu t, s => t.shape s
| T2.conv i o k st p t, s =>
    match t.shape s with
    | some u => conv2Shape i o k st p u
    | none => none
| T2.dp t, s => t.shape s
| T2.add a b, s =>
    match a.shape s, b.shape s with
    | some u, some v => if u = v then some u else none
    | _, _ => none

/-- The operations of a `T2` expression in execution order. -/
def T2.ops : T2 → List Op
| T2.x => []
| T2.bn _ t => t.ops ++ [Op.norm]
| T2.relu t => t.ops ++ [Op.act]
| T2.conv _ _ _ st _ t => t.ops ++ [Op.conv st]
| T2.dp t => t.ops ++ [Op.dropout]
| T2.add a b => a.ops ++ b.ops ++ [Op.add]

/-- Configuration of `ResBlock3D` as fixed by its `__init__`: the two BatchNorm
and conv layers are determined by the fields; `padding` is the padding of the
first conv and of the downsample projection (`1 if stride == 1 else (0,1,1)`);
`downsample` records whether the projection shortcut was installed.  (All call
sites in the file construct the block with the `downsample=None` default.) -/
structure ResBlock3D where
  in_channels : Nat
  out_channels : Nat
  stride : Nat
  p : ℚ
  padding : Nat × Nat × Nat
  downsample : Bool
deriving DecidableEq, Repr

/-- `ResBlock3D.__init__(in_channels, out_channels, stride, p)`. -/
def mkResBlock3D (inChannels outChannels s : Nat) (p : ℚ) : ResBlock3D :=
  { in_channels := inChannels
    out_channels := outChannels
    stride := s
    p := p
    padding := if s = 1 then (1, 1, 1) else (0, 1, 1)
    downsample := decide (s ≠ 1 ∨ inChannels ≠ outChannels) }

/-- Main path of `ResBlock3D.forward`, statement by statement:
bn1, relu, conv1 (stride, computed padding), bn2, relu, conv2 (stride 1,
padding 1), dropout. -/
def ResBlock3D.mainPath (blk : ResBlock3D) : T3 :=
  let out := T3.bn blk.in_channels T3.x
  let out := T3.relu out
  let out := T3.conv blk.in_channels blk.out_channels blk.stride blk.padding out
  let out := T3.bn blk.out_channels out
  let out := T3.relu out
  let out := T3.conv blk.out_channels blk.out_channels 1 (1, 1, 1) out
  T3.dp out

/-- Shortcut path of `ResBlock3D.forward`: the residual is the input, passed
through the projection (kernel-3 conv with the same stride and padding as
conv1, then BatchNorm3d) exactly when the projection was installed. -/
def ResBlock3D.shortcut (blk : ResBlock3D) : T3 :=
  if blk.downsample then
    T3.bn blk.out_channels
      (T3.conv blk.in_channels blk.out_channels blk.stride blk.padding T3.x)
  else T3.x

/-- Whole dataflow of `ResBlock3D.forward`: main path plus `out += residual`. -/
def ResBlock3D.expr (blk : ResBlock3D) : T3 :=
  T3.add blk.mainPath blk.shortcut

/-- Shape of the output of `ResBlock3D.forward` on input shape `s`. -/
def ResBlock3D.fwdShape (blk : ResBlock3D) (s : Shape5) : Option Shape5 :=
  blk.expr.shape s

/-- Configuration of `ResBlock2D` as fixed by its `__init__`.  The projection
shortcut of the 2D block is a kernel-1 convolution with the same stride. -/
structure ResBlock2D where
  in_channels : Nat
  out_channels : Nat
  stride : Nat
  p : ℚ
  downsample : Bool
deriving DecidableEq, Repr

/-- `ResBlock2D.__init__(in_channels, out_channels, stride, p)`. -/
def mkResBlock2D (inChannels outChannels s : Nat) (p : ℚ) : ResBlock2D :=
  { in_channels := inChannels
    out_channels := outChannels
    stride := s
    p := p
    downsample := decide (s ≠ 1 ∨ inChannels ≠ outChannels) }

/-- Main path of `ResBlock2D.forward`, statement by statement: bn1, relu,
conv1 (kernel 3, stride, padding 1), dropout, bn2, relu, conv2 (kernel 3,
stride 1, padding 1), dropout. -/
def ResBlock2D.mainPath (blk : ResBlock2D) : T2 :=
  let out := T2.bn blk.in_channels T2.x
  let out := T2.relu out
  let out := T2.conv blk.in_channels blk.out_channels 3 blk.stride 1 out
  let out := T2.dp out
  let out := T2.bn blk.out_channels out
  let out := T2.relu out
  let out := T2.conv blk.out_channels blk.out_channels 3 1 1 out
  T2.dp out

/-- Shortcut path of `ResBlock2D.forward`: kernel-1 stride-matched conv plus
BatchNorm2d when installed, identity otherwise. -/
def ResBlock2D.shortcut (blk : ResBlock2D) : T2 :=
  if blk.downsample then
    T2.bn blk.out_channels
      (T2.conv blk.in_channels blk.out_channels 1 blk.stride 0 T2.x)
  else T2.x

/-- Whole dataflow of `ResBlock2D.forward`. -/
def ResBlock2D.expr (blk : ResBlock2D) : T2 :=
  T2.add blk.mainPath blk.shortcut

/-- Shape of the output of `ResBlock2D.forward` on input shape `s`. -/
def ResBlock2D.fwdShape (blk : ResBlock2D) (s : Shape4) : Option Shape4 :=
  blk.expr.shape s

/-- Configuration of `UpConv`: an `nn.ConvTranspose2d(in_channels,
out_channels, kernel_size=2, stride=2, padding=0)`. -/
structure UpConv where
  in_channels : Nat
  out_channels : Nat
deriving DecidableEq, Repr

/-- `central_inx = skip.size(2) // 2` (line 110 of the source). -/
def UpConv.centralInx (skip : Shape5) : Nat :=
  skip.d / 2

/-- Shape semantics of `UpConv.forward(skip, x)`: extract the central slice of
the 3D skip tensor, apply the kernel-2 stride-2 transposed convolution to the
2D input, concatenate skip slice first along the channel axis. -/
def UpConv.forward (u : UpConv) (skip : Shape5) (x : Shape4) : Option Shape4 :=
  match slice5 skip (UpConv.centralInx skip) with
  | none => none
  | some skipSlice =>
    match transConv2Shape u.in_channels u.out_channels 2 2 0 x with
    | none => none
    | some out => cat2 skipSlice out

/-- Contracting blocks from the `__init__` loop over `down_blocks`: the first
block keeps the channel count (`down_blocks[0] -> down_blocks[0]`) with stride
1, every later block maps the previous channel count to its own with stride 2.
`mkBlocksDownRest prev cs` builds the stride-2 tail, `prev` being the channel
count of the previous stage. -/
def mkBlocksDownRest (p : ℚ) : Nat → List Nat → List ResBlock3D
| _, [] => []
| prev, c :: cs => mkResBlock3D prev c 2 p :: mkBlocksDownRest p c cs

/-- The full `BlocksDown` list. -/
def mkBlocksDown (p : ℚ) : List Nat → List ResBlock3D
| [] => []
| c0 :: cs => mkResBlock3D c0 c0 1 p :: mkBlocksDownRest p c0 cs

/-- `TransUpBlocks` from the `__init__` loop over `up_blocks`: stage `i` is an
`UpConv(input_channel, up_blocks[i])` where `input_channel` is `bottleneck`
for the first stage and `up_blocks[i-1]` afterwards; `prev` carries that
input channel count. -/
def mkTransUpBlocks : Nat → List Nat → List UpConv
| _, [] => []
| prev, c :: cs => UpConv.mk prev c :: mkTransUpBlocks c cs

/-- `BlocksUp` from the same loop: `ResBlock2D(input_channel, up_blocks[i],
stride=1, p=p)` with the same `input_channel` schedule. -/
def mkBlocksUp (p : ℚ) : Nat → List Nat → List ResBlock2D
| _, [] => []
| prev, c :: cs => mkResBlock2D prev c 1 p :: mkBlocksUp p c cs

/-- Configuration of a constructed `ResUNet`: the stored `down_blocks` and
`up_blocks` lists and every submodule created by `__init__`.  `conv1` keeps
the (in, out) channel counts of the initial kernel-3 padding-1 `nn.Conv3d`;
`fl` keeps those of the final kernel-1 `nn.Conv2d`. -/
structure ResUNet where
  down_blocks : List Nat
  up_blocks : List Nat
  conv1 : Nat × Nat
  BlocksDown : List ResBlock3D
  bottleneck : ResBlock3D
  TransUpBlocks : List UpConv
  BlocksUp : List ResBlock2D
  fl : Nat × Nat
deriving DecidableEq, Repr

/-- `ResUNet.__init__(in_channels, out_channels, down_blocks, up_blocks,
bottleneck, p)`.  `down_blocks[0]`, `down_blocks[-1]` and `up_blocks[-1]` are
read with a default of 0 for the empty list (the Python would raise there;
every construction in the file passes non-empty lists). -/
def mkResUNet (inChannels outChannels : Nat) (downBlocks upBlocks : List Nat)
    (bottleneck : Nat) (p : ℚ) : ResUNet :=
  { down_blocks := downBlocks
    up_blocks := upBlocks
    conv1 := (inChannels, downBlocks.headI)
    BlocksDown := mkBlocksDown p downBlocks
    bottleneck := mkResBlock3D (downBlocks.getLastD 0) bottleneck 2 p
    TransUpBlocks := mkTransUpBlocks bottleneck upBlocks
    BlocksUp := mkBlocksUp p bottleneck upBlocks
    fl := (upBlocks.getLastD 0, outChannels) }

/-- The defaults of the `ResUNet.__init__` signature: `down_blocks=[32, 64,
128, 256]`, `up_blocks=[256, 128, 64, 32]`, `bottleneck=512`.  Calling the
constructor with only `in_channels`, `out_channels` and `p` uses these. -/
def mkResUNetDefault (inChannels outChannels : Nat) (p : ℚ) : ResUNet :=
  mkResUNet inChannels outChannels [32, 64, 128, 256] [256, 128, 64, 32] 512 p

/-- The `ResUNet28` preset factory (large). -/
def ResUNet28 (inChannels outChannels : Nat) (p : ℚ) : ResUNet :=
  mkResUNet inChannels outChannels [32, 64, 128, 256, 512] [512, 256, 128, 64, 32] 1024 p

/-- The `ResUNet23` preset factory (medium). -/
def ResUNet23 (inChannels outChannels : Nat) (p : ℚ) : ResUNet :=
  mkResUNet inChannels outChannels [32, 64, 128, 256] [256, 128, 64, 32] 512 p

/-- The `ResUNet18` preset factory (small). -/
def ResUNet18 (inChannels outChannels : Nat) (p : ℚ) : ResUNet :=
  mkResUNet inChannels outChannels [32, 64, 128] [128, 64, 32] 256 p

/-- The three size presets. -/
inductive Preset
| small
| medium
| large
deriving DecidableEq, Repr

/-- The factory of each preset. -/
def presetNet : Preset → Nat → Nat → ℚ → ResUNet
| Preset.small => ResUNet18
| Preset.medium => ResUNet23
| Preset.large => ResUNet28

/-- Number of contracting stages N of each preset (= length of its
`down_blocks`). -/
def presetStages : Preset → Nat
| Preset.small => 3
| Preset.medium => 4
| Preset.large => 5

/-- The contracting loop of `ResUNet.forward`: apply each block in turn and
append its output to the skip list (`skip_connections.append(out)`). -/
def downLoop : List ResBlock3D → Shape5 → List Shape5 → Option (Shape5 × List Shape5)
| [], out, skips => some (out, skips)
| blk :: rest, out, skips =>
    match blk.fwdShape out with
    | some o => downLoop rest o (skips ++ [o])
    | none => none

/-- `skip_connections.pop()`: remove and return the last element; raises on an
empty list. -/
def popLast (l : List Shape5) : Option (Shape5 × List Shape5) :=
  match l.getLast? with
  | some a => some (a, l.dropLast)
  | none => none

/-- The central slice taken from the bottleneck output by the first expanding
stage: `n_slices = out.size(2); out[:, :, n_slices // 2]`. -/
def ResUNet.bottleneckSlice (out : Shape5) : Option Shape4 :=
  slice5 out (out.d / 2)

/-- The expanding loop of `ResUNet.forward` for the stages after the first:
pop a skip tensor, apply the `UpConv` fusion, apply the 2D block.  Returns the
final 2D shape and whatever is left of the skip list. -/
def upLoop : List UpConv → List ResBlock2D → List Shape5 → Shape4 →
    Option (Shape4 × List Shape5)
| [], [], skips, x => some (x, skips)
| t :: ts, blk :: blks, skips, x =>
    match popLast skips with
    | none => none
    | some (skip, rest) =>
      match t.forward skip x with
      | none => none
      | some o =>
        match blk.fwdShape o with
        | some o2 => upLoop ts blks rest o2
        | none => none
| _, _, _, _ => none

/-- `ResUNet.forward` up to (but not including) the final convolution `fl`,
also returning what remains of the skip list: initial conv1, contracting loop,
bottleneck, then the expanding loop whose first iteration fuses the popped
skip with the central slice of the bottleneck output.  A network whose
`TransUpBlocks` and `BlocksUp` do not decompose as required (never produced by
`mkResUNet` with a non-empty `up_blocks`) yields `none`, matching the Python
error on the later `fl` call on a rank-5 tensor. -/
def ResUNet.forwardAux (net : ResUNet) (x : Shape5) : Option (Shape4 × List Shape5) :=
  match conv3Shape net.conv1.1 net.conv1.2 1 (1, 1, 1) x with
  | none => none
  | some out =>
    match downLoop net.BlocksDown out [] with
    | none => none
    | some (out, skips) =>
      match net.bottleneck.fwdShape out with
      | none => none
      | some out =>
        match net.TransUpBlocks, net.BlocksUp with
        | t :: ts, blk :: blks =>
          match popLast skips with
          | none => none
          | some (skip, rest) =>
            match ResUNet.bottleneckSlice out with
            | none => none
            | some xc =>
              match t.forward skip xc with
              | none => none
              | some o =>
                match blk.fwdShape o with
                | some o2 => upLoop ts blks rest o2
                | none => none
        | _, _ => none

/-- Shape of the output of `ResUNet.forward`: `forwardAux` followed by the
final kernel-1 convolution `fl`. -/
def ResUNet.forward (net : ResUNet) (x : Shape5) : Option Shape4 :=
  match net.forwardAux x with
  | some (out, _) => conv2Shape net.fl.1 net.fl.2 1 1 0 out
  | none => none

/-- Depth produced by a stride-2 `conv_333` with zero depth padding on input
depth `d` (the first conv of a stride-2 `ResBlock3D`): `(d - 3) / 2 + 1`. -/
def downDepth (d : Nat) : Nat :=
  (d - 3) / 2 + 1

/-- Admissibility of a depth for `n` consecutive stride-2 3D blocks: each such
block needs depth at least 3 (zero depth padding, kernel 3), and hands
`downDepth d` to the next. -/
def validDepth : Nat → Nat → Bool
| _, 0 => true
| d, n + 1 => decide (3 ≤ d) && validDepth (downDepth d) n

/-- Depth after `m` consecutive stride-2 3D blocks. -/
def iterDepth : Nat → Nat → Nat
| 0, d => d
| m + 1, d => iterDepth m (downDepth d)

/-- Centre of the receptive field, along the depth axis, of output index `j`
of a kernel-3 convolution with stride `s` and depth padding `p`: the output at
`j` reads the input window starting at `s * j - p`, whose middle element is
`s * j + 1 - p` (here always `p ≤ 1`, so the truncated subtraction is exact
for every index of a window that lies inside the input). -/
def rfCenter (s p j : Nat) : Nat :=
  s * j + 1 - p

/-- Depth index of the original input that the output index `j` of a stride-2
zero-depth-padding `conv_333` is centred on. -/
def downCenterMap (j : Nat) : Nat :=
  rfCenter 2 0 j

/-- Input depth index that index `j` of the feature map after `m` stride-2 3D
blocks is centred on: compose the per-block centre maps, innermost block
first. -/
def iterCenter : Nat → Nat → Nat
| 0, j => j
| m + 1, j => downCenterMap (iterCenter m j)

/-- Every depth along a chain of `m` stride-2 reductions is odd (and at least
3 wherever another reduction follows). -/
def oddChainD : Nat → Nat → Bool
| d, 0 => decide (d % 2 = 1)
| d, m + 1 => decide (d % 2 = 1) && decide (3 ≤ d) && oddChainD (downDepth d) m

/-- Weight and bias vectors of a BatchNorm layer. -/
structure NormParams where
  weight : List ℚ
  bias : List ℚ
deriving DecidableEq, Repr

/-- Weight vector of a convolution layer together with its fan-in. -/
structure ConvParams where
  weight : List ℚ
  fan_in : Nat
deriving DecidableEq, Repr

/-- One parameterised layer of the module tree, tagged 2D or 3D. -/
inductive PLayer
| conv2d (c : ConvParams)
| norm2d (nl : NormParams)
| conv3d (c : ConvParams)
| norm3d (nl : NormParams)
deriving DecidableEq, Repr

/-- Modelled from the spec: the per-layer action of `_initialize_weights_2d`
(imported from `hybrid/models/utils.py` at line 11 of the source, a file that
is not under `src/`).  Per the spec (sections 4.4 and 8) it gives every 2D
normalization layer weight 1 and bias 0, and every 2D convolution fan-in
scaled random weights; the random draws `zs` and the positive scale
`scale fan_in` (standing for sqrt(2 / fan_in)) are parameters of the model.
Layers of the 3D population are untouched. -/
def step2d (scale : Nat → ℚ) (zs : List ℚ) : PLayer → PLayer
| PLayer.conv2d cp => PLayer.conv2d ⟨zs.map (fun z => scale cp.fan_in * z), cp.fan_in⟩
| PLayer.norm2d _nl => PLayer.norm2d ⟨_nl.weight.map (fun _ => (1 : ℚ)),
    _nl.bias.map (fun _ => (0 : ℚ))⟩
| l => l

/-- Modelled from the spec: the per-layer action of `_initialize_weights_3d`
(same missing file), acting on the 3D population only. -/
def step3d (scale : Nat → ℚ) (zs : List ℚ) : PLayer → PLayer
| PLayer.conv3d cp => PLayer.conv3d ⟨zs.map (fun z => scale cp.fan_in * z), cp.fan_in⟩
| PLayer.norm3d _nl => PLayer.norm3d ⟨_nl.weight.map (fun _ => (1 : ℚ)),
    _nl.bias.map (fun _ => (0 : ℚ))⟩
| l => l

/-- Modelled from the spec: `_initialize_weights_2d` over the whole module
list; `noise i` is the draw used for the layer at position `i0 + i`. -/
def weightPass2d (scale : Nat → ℚ) (noise : Nat → List ℚ) : Nat → List PLayer → List PLayer
| _, [] => []
| i, l :: ls => step2d scale (noise i) l :: weightPass2d scale noise (i + 1) ls

/-- Modelled from the spec: `_initialize_weights_3d` over the whole module
list. -/
def weightPass3d (scale : Nat → ℚ) (noise : Nat → List ℚ) : Nat → List PLayer → List PLayer
| _, [] => []
| i, l :: ls => step3d scale (noise i) l :: weightPass3d scale noise (i + 1) ls

/-- The initialization performed once at the end of `ResUNet.__init__` (lines
155 to 157 of the source): `_initialize_weights_3d(self)` followed by
`_initialize_weights_2d(self)`. -/
def initWeights (scale : Nat → ℚ) (noise3 noise2 : Nat → List ℚ)
    (layers : List PLayer) : List PLayer :=
  weightPass2d scale noise2 0 (weightPass3d scale noise3 0 layers)

/-- A list of rationals takes two different values somewhere (nonzero
empirical variance; in particular not all zero and not constant). -/
def Nonconstant (l : List ℚ) : Prop :=
  ∃ a ∈ l, ∃ b ∈ l, a ≠ b

theorem convDim_s1p1 (i : Nat) (hi : 1 ≤ i) : convDim i 3 1 1 = some i := by
  unfold convDim
  rw [if_pos (by omega)]
  congr 1
  omega

theorem convDim_s2p1_even (m : Nat) (hm : 1 ≤ m) : convDim (2 * m) 3 2 1 = some m := by
  unfold convDim
  rw [if_pos (by omega)]
  congr 1
  omega

theorem convDim_s2p0 (d : Nat) (hd : 3 ≤ d) : convDim d 3 2 0 = some (downDepth d) := by
  unfold convDim downDepth
  rw [if_pos (by omega)]
  norm_num

theorem convDim_k1 (i : Nat) (hi : 1 ≤ i) : convDim i 1 1 0 = some i := by
  unfold convDim
  rw [if_pos (by omega)]
  congr 1
  omega

theorem downDepth_pos (d : Nat) : 1 ≤ downDepth d := by
  unfold downDepth
  omega

theorem block3d_s1 (i o b d h w : Nat) (p : ℚ) (hd : 1 ≤ d) (hh : 1 ≤ h) (hw : 1 ≤ w) :
    (mkResBlock3D i o 1 p).fwdShape ⟨b, i, d, h, w⟩ = some ⟨b, o, d, h, w⟩ := by
  by_cases hio : i = o
  · subst hio
    simp [ResBlock3D.fwdShape, ResBlock3D.expr, ResBlock3D.mainPath, ResBlock3D.shortcut,
      mkResBlock3D, T3.shape, conv3Shape, convDim_s1p1 _ hd, convDim_s1p1 _ hh, convDim_s1p1 _ hw]
  · simp [ResBlock3D.fwdShape, ResBlock3D.expr, ResBlock3D.mainPath, ResBlock3D.shortcut,
      mkResBlock3D, T3.shape, conv3Shape, hio, convDim_s1p1 _ hd, convDim_s1p1 _ hh, convDim_s1p1 _ hw]

theorem block3d_s2 (i o b d m mw : Nat) (p : ℚ) (hd : 3 ≤ d) (hm : 1 ≤ m) (hmw : 1 ≤ mw) :
    (mkResBlock3D i o 2 p).fwdShape ⟨b, i, d, 2 * m, 2 * mw⟩ =
      some ⟨b, o, downDepth d, m, mw⟩ := by
  simp [ResBlock3D.fwdShape, ResBlock3D.expr, ResBlock3D.mainPath, ResBlock3D.shortcut,
    mkResBlock3D, T3.shape, conv3Shape, convDim_s2p0 _ hd, convDim_s2p1_even _ hm,
    convDim_s2p1_even _ hmw, convDim_s1p1 _ (downDepth_pos d), convDim_s1p1 _ hm,
    convDim_s1p1 _ hmw]

theorem block2d_s1 (i o b h w : Nat) (p : ℚ) (hh : 1 ≤ h) (hw : 1 ≤ w) :
    (mkResBlock2D i o 1 p).fwdShape ⟨b, i, h, w⟩ = some ⟨b, o, h, w⟩ := by
  by_cases hio : i = o
  · subst hio
    simp [ResBlock2D.fwdShape, ResBlock2D.expr, ResBlock2D.mainPath, ResBlock2D.shortcut,
      mkResBlock2D, T2.shape, conv2Shape, convDim_s1p1 _ hh, convDim_s1p1 _ hw,
      convDim_k1 _ hh, convDim_k1 _ hw]
  · simp [ResBlock2D.fwdShape, ResBlock2D.expr, ResBlock2D.mainPath, ResBlock2D.shortcut,
      mkResBlock2D, T2.shape, conv2Shape, hio, convDim_s1p1 _ hh, convDim_s1p1 _ hw,
      convDim_k1 _ hh, convDim_k1 _ hw]

theorem upconv_fwd (i o b sc dd h w : Nat) (hd : 1 ≤ dd) (hh : 1 ≤ h) (hw : 1 ≤ w) :
    (UpConv.mk i o).forward ⟨b, sc, dd, 2 * h, 2 * w⟩ ⟨b, i, h, w⟩ =
      some ⟨b, sc + o, 2 * h, 2 * w⟩ := by
  have hslice : dd / 2 < dd := Nat.div_lt_self (by omega) (by omega)
  have h2 : (h - 1) * 2 + 2 - 2 * 0 = 2 * h := by omega
  have w2 : (w - 1) * 2 + 2 - 2 * 0 = 2 * w := by omega
  simp [UpConv.forward, UpConv.centralInx, slice5, transConv2Shape, cat2, hslice, hh, hw, h2, w2]
  omega

theorem downLoop_length (blocks : List ResBlock3D) :
    ∀ s acc out skips, downLoop blocks s acc = some (out, skips) →
      skips.length = acc.length + blocks.length := by
  induction blocks with
  | nil =>
    intro s acc out skips h
    simp [downLoop] at h
    simp [h.2.symm]
  | cons blk rest ih =>
    intro s acc out skips h
    simp only [downLoop] at h
    cases hb : blk.fwdShape s with
    | none => rw [hb] at h; exact absurd h (by simp)
    | some o =>
      rw [hb] at h
      have := ih o (acc ++ [o]) out skips h
      simp at this
      simp [this]
      omega

theorem upLoop_length (ts : List UpConv) :
    ∀ blks skips x out rest, upLoop ts blks skips x = some (out, rest) →
      rest.length + ts.length = skips.length := by
  induction ts with
  | nil =>
    intro blks skips x out rest h
    cases blks with
    | nil => simp [upLoop] at h; simp [h.2.symm]
    | cons b bs => simp [upLoop] at h
  | cons t ts ih =>
    intro blks skips x out rest h
    cases blks with
    | nil => simp [upLoop] at h
    | cons blk blks =>
      simp only [upLoop] at h
      cases hp : popLast skips with
      | none => rw [hp] at h; exact absurd h (by simp)
      | some pr =>
        obtain ⟨skip, rest2⟩ := pr
        rw [hp] at h
        simp only at h
        cases hu : t.forward skip x with
        | none => rw [hu] at h; exact absurd h (by simp)
        | some o =>
          rw [hu] at h
          simp only at h
          cases hb : blk.fwdShape o with
          | none => rw [hb] at h; exact absurd h (by simp)
          | some o2 =>
            rw [hb] at h
            simp only at h
            have hlen := ih blks rest2 o2 out rest h
            have hpop : rest2.length + 1 = skips.length := by
              unfold popLast at hp
              cases hl : skips.getLast? with
              | none => rw [hl] at hp; exact absurd hp (by simp)
              | some a =>
                rw [hl] at hp
                have hr2 : rest2 = skips.dropLast := by
                  have := hp
                  simp at this
                  exact this.2.symm
                have hne : skips ≠ [] := by
                  intro hnil
                  rw [hnil] at hl
                  simp at hl
                rw [hr2]
                simp [List.length_dropLast]
                have := List.length_pos.mpr hne
                omega
            simp at hlen ⊢
            omega

theorem conv3Shape_s1p1 (i o b d h w : Nat) (hd : 1 ≤ d) (hh : 1 ≤ h) (hw : 1 ≤ w) :
    conv3Shape i o 1 (1, 1, 1) ⟨b, i, d, h, w⟩ = some ⟨b, o, d, h, w⟩ := by
  simp [conv3Shape, convDim_s1p1 _ hd, convDim_s1p1 _ hh, convDim_s1p1 _ hw]

theorem conv2Shape_k1 (i o b h w : Nat) (hh : 1 ≤ h) (hw : 1 ≤ w) :
    conv2Shape i o 1 1 0 ⟨b, i, h, w⟩ = some ⟨b, o, h, w⟩ := by
  simp [conv2Shape, convDim_k1 _ hh, convDim_k1 _ hw]

theorem bottleneckSlice_some (b c dd h w : Nat) (hd : 1 ≤ dd) :
    ResUNet.bottleneckSlice ⟨b, c, dd, h, w⟩ = some ⟨b, c, h, w⟩ := by
  simp [ResUNet.bottleneckSlice, slice5, Nat.div_lt_self (by omega : 0 < dd)]

theorem popLast_append (l : List Shape5) (a : Shape5) : popLast (l ++ [a]) = some (a, l) := by
  simp [popLast]

theorem forwardMedium (inC outC b D mH mW : Nat) (p : ℚ)
    (hv : validDepth D 4 = true) (hmH : 0 < mH) (hmW : 0 < mW) :
    ResUNet.forward (ResUNet23 inC outC p) ⟨b, inC, D, 16 * mH, 16 * mW⟩ =
      some ⟨b, outC, 16 * mH, 16 * mW⟩ := by
  simp only [validDepth, Bool.and_eq_true, decide_eq_true_eq] at hv
  obtain ⟨hd0, hd1, hd2, hd3, -⟩ := hv
  have h0 : conv3Shape inC 32 1 (1, 1, 1) ⟨b, inC, D, 16 * mH, 16 * mW⟩ =
      some ⟨b, 32, D, 16 * mH, 16 * mW⟩ :=
    conv3Shape_s1p1 _ _ _ _ _ _ (by omega) (by omega) (by omega)
  have h1 : (mkResBlock3D 32 32 1 p).fwdShape ⟨b, 32, D, 16 * mH, 16 * mW⟩ =
      some ⟨b, 32, D, 16 * mH, 16 * mW⟩ :=
    block3d_s1 _ _ _ _ _ _ p (by omega) (by omega) (by omega)
  have h2 : (mkResBlock3D 32 64 2 p).fwdShape ⟨b, 32, D, 16 * mH, 16 * mW⟩ =
      some ⟨b, 64, downDepth D, 8 * mH, 8 * mW⟩ := by
    rw [show (16 : Nat) * mH = 2 * (8 * mH) from by ring,
      show (16 : Nat) * mW = 2 * (8 * mW) from by ring]
    exact block3d_s2 _ _ _ _ _ _ p hd0 (by omega) (by omega)
  have h3 : (mkResBlock3D 64 128 2 p).fwdShape ⟨b, 64, downDepth D, 8 * mH, 8 * mW⟩ =
      some ⟨b, 128, downDepth (downDepth D), 4 * mH, 4 * mW⟩ := by
    rw [show (8 : Nat) * mH = 2 * (4 * mH) from by ring,
      show (8 : Nat) * mW = 2 * (4 * mW) from by ring]
    exact block3d_s2 _ _ _ _ _ _ p hd1 (by omega) (by omega)
  have h4 : (mkResBlock3D 128 256 2 p).fwdShape
      ⟨b, 128, downDepth (downDepth D), 4 * mH, 4 * mW⟩ =
      some ⟨b, 256, downDepth (downDepth (downDepth D)), 2 * mH, 2 * mW⟩ := by
    rw [show (4 : Nat) * mH = 2 * (2 * mH) from by ring,
      show (4 : Nat) * mW = 2 * (2 * mW) from by ring]
    exact block3d_s2 _ _ _ _ _ _ p hd2 (by omega) (by omega)
  have h5 : (mkResBlock3D 256 512 2 p).fwdShape
      ⟨b, 256, downDepth (downDepth (downDepth D)), 2 * mH, 2 * mW⟩ =
      some ⟨b, 512, downDepth (downDepth (downDepth (downDepth D))), mH, mW⟩ := by
    rw [show (2 : Nat) * mH = 2 * (1 * mH) from by ring,
      show (2 : Nat) * mW = 2 * (1 * mW) from by ring]
    have := block3d_s2 256 512 b (downDepth (downDepth (downDepth D))) (1 * mH) (1 * mW) p hd3
      (by omega) (by omega)
    simpa using this
  have h6 : ResUNet.bottleneckSlice
      ⟨b, 512, downDepth (downDepth (downDepth (downDepth D))), mH, mW⟩ =
      some ⟨b, 512, mH, mW⟩ :=
    bottleneckSlice_some _ _ _ _ _ (downDepth_pos _)
  have h7 : (UpConv.mk 512 256).forward
      ⟨b, 256, downDepth (downDepth (downDepth D)), 2 * mH, 2 * mW⟩ ⟨b, 512, mH, mW⟩ =
      some ⟨b, 512, 2 * mH, 2 * mW⟩ := by
    have := upconv_fwd 512 256 b 256 (downDepth (downDepth (downDepth D))) mH mW
      (downDepth_pos _) (by omega) (by omega)
    simpa using this
  have h8 : (mkResBlock2D 512 256 1 p).fwdShape ⟨b, 512, 2 * mH, 2 * mW⟩ =
      some ⟨b, 256, 2 * mH, 2 * mW⟩ :=
    block2d_s1 _ _ _ _ _ p (by omega) (by omega)
  have h9 : (UpConv.mk 256 128).forward
      ⟨b, 128, downDepth (downDepth D), 4 * mH, 4 * mW⟩ ⟨b, 256, 2 * mH, 2 * mW⟩ =
      some ⟨b, 256, 4 * mH, 4 * mW⟩ := by
    rw [show (4 : Nat) * mH = 2 * (2 * mH) from by ring,
      show (4 : Nat) * mW = 2 * (2 * mW) from by ring]
    have := upconv_fwd 256 128 b 128 (downDepth (downDepth D)) (2 * mH) (2 * mW)
      (downDepth_pos _) (by omega) (by omega)
    simpa using this
  have h10 : (mkResBlock2D 256 128 1 p).fwdShape ⟨b, 256, 4 * mH, 4 * mW⟩ =
      some ⟨b, 128, 4 * mH, 4 * mW⟩ :=
    block2d_s1 _ _ _ _ _ p (by omega) (by omega)
  have h11 : (UpConv.mk 128 64).forward
      ⟨b, 64, downDepth D, 8 * mH, 8 * mW⟩ ⟨b, 128, 4 * mH, 4 * mW⟩ =
      some ⟨b, 128, 8 * mH, 8 * mW⟩ := by
    rw [show (8 : Nat) * mH = 2 * (4 * mH) from by ring,
      show (8 : Nat) * mW = 2 * (4 * mW) from by ring]
    have := upconv_fwd 128 64 b 64 (downDepth D) (4 * mH) (4 * mW)
      (downDepth_pos _) (by omega) (by omega)
    simpa using this
  have h12 : (mkResBlock2D 128 64 1 p).fwdShape ⟨b, 128, 8 * mH, 8 * mW⟩ =
      some ⟨b, 64, 8 * mH, 8 * mW⟩ :=
    block2d_s1 _ _ _ _ _ p (by omega) (by omega)
  have h13 : (UpConv.mk 64 32).forward
      ⟨b, 32, D, 16 * mH, 16 * mW⟩ ⟨b, 64, 8 * mH, 8 * mW⟩ =
      some ⟨b, 64, 16 * mH, 16 * mW⟩ := by
    rw [show (16 : Nat) * mH = 2 * (8 * mH) from by ring,
      show (16 : Nat) * mW = 2 * (8 * mW) from by ring]
    have := upconv_fwd 64 32 b 32 D (8 * mH) (8 * mW) (by omega) (by omega) (by omega)
    simpa using this
  have h14 : (mkResBlock2D 64 32 1 p).fwdShape ⟨b, 64, 16 * mH, 16 * mW⟩ =
      some ⟨b, 32, 16 * mH, 16 * mW⟩ :=
    block2d_s1 _ _ _ _ _ p (by omega) (by omega)
  have h15 : conv2Shape 32 outC 1 1 0 ⟨b, 32, 16 * mH, 16 * mW⟩ =
      some ⟨b, outC, 16 * mH, 16 * mW⟩ :=
    conv2Shape_k1 _ _ _ _ _ (by omega) (by omega)
  have hnet1 : (ResUNet23 inC outC p).conv1 = (inC, 32) := rfl
  have hnetBD : (ResUNet23 inC outC p).BlocksDown = [mkResBlock3D 32 32 1 p,
      mkResBlock3D 32 64 2 p, mkResBlock3D 64 128 2 p, mkResBlock3D 128 256 2 p] := rfl
  have hnetBot : (ResUNet23 inC outC p).bottleneck = mkResBlock3D 256 512 2 p := rfl
  have hnetT : (ResUNet23 inC outC p).TransUpBlocks = [UpConv.mk 512 256,
      UpConv.mk 256 128, UpConv.mk 128 64, UpConv.mk 64 32] := rfl
  have hnetU : (ResUNet23 inC outC p).BlocksUp = [mkResBlock2D 512 256 1 p,
      mkResBlock2D 256 128 1 p, mkResBlock2D 128 64 1 p, mkResBlock2D 64 32 1 p] := rfl
  have hnetFl : (ResUNet23 inC outC p).fl = (32, outC) := rfl
  simp only [ResUNet.forward, ResUNet.forwardAux, hnet1, hnetBD, hnetBot, hnetT, hnetU,
    hnetFl, downLoop, upLoop, popLast_append, h0, h1, h2, h3, h4, h5, h6, h7, h8, h9,
    h10, h11, h12, h13, h14, h15]

theorem forwardSmall (inC outC b D mH mW : Nat) (p : ℚ)
    (hv : validDepth D 3 = true) (hmH : 0 < mH) (hmW : 0 < mW) :
    ResUNet.forward (ResUNet18 inC outC p) ⟨b, inC, D, 8 * mH, 8 * mW⟩ =
      some ⟨b, outC, 8 * mH, 8 * mW⟩ := by
  simp only [validDepth, Bool.and_eq_true, decide_eq_true_eq] at hv
  obtain ⟨hd0, hd1, hd2, -⟩ := hv
  have h0 : conv3Shape inC 32 1 (1, 1, 1) ⟨b, inC, D, 8 * mH, 8 * mW⟩ =
      some ⟨b, 32, D, 8 * mH, 8 * mW⟩ :=
    conv3Shape_s1p1 _ _ _ _ _ _ (by omega) (by omega) (by omega)
  have h1 : (mkResBlock3D 32 32 1 p).fwdShape ⟨b, 32, D, 8 * mH, 8 * mW⟩ =
      some ⟨b, 32, D, 8 * mH, 8 * mW⟩ :=
    block3d_s1 _ _ _ _ _ _ p (by omega) (by omega) (by omega)
  have h2 : (mkResBlock3D 32 64 2 p).fwdShape ⟨b, 32, D, 8 * mH, 8 * mW⟩ =
      some ⟨b, 64, downDepth D, 4 * mH, 4 * mW⟩ := by
    rw [show (8 : Nat) * mH = 2 * (4 * mH) from by ring,
      show (8 : Nat) * mW = 2 * (4 * mW) from by ring]
    exact block3d_s2 _ _ _ _ _ _ p hd0 (by omega) (by omega)
  have h3 : (mkResBlock3D 64 128 2 p).fwdShape ⟨b, 64, downDepth D, 4 * mH, 4 * mW⟩ =
      some ⟨b, 128, downDepth (downDepth D), 2 * mH, 2 * mW⟩ := by
    rw [show (4 : Nat) * mH = 2 * (2 * mH) from by ring,
      show (4 : Nat) * mW = 2 * (2 * mW) from by ring]
    exact block3d_s2 _ _ _ _ _ _ p hd1 (by omega) (by omega)
  have h5 : (mkResBlock3D 128 256 2 p).fwdShape
      ⟨b, 128, downDepth (downDepth D), 2 * mH, 2 * mW⟩ =
      some ⟨b, 256, downDepth (downDepth (downDepth D)), mH, mW⟩ := by
    rw [show (2 : Nat) * mH = 2 * (1 * mH) from by ring,
      show (2 : Nat) * mW = 2 * (1 * mW) from by ring]
    have := block3d_s2 128 256 b (downDepth (downDepth D)) (1 * mH) (1 * mW) p hd2
      (by omega) (by omega)
    simpa using this
  have h6 : ResUNet.bottleneckSlice
      ⟨b, 256, downDepth (downDepth (downDepth D)), mH, mW⟩ =
      some ⟨b, 256, mH, mW⟩ :=
    bottleneckSlice_some _ _ _ _ _ (downDepth_pos _)
  have h7 : (UpConv.mk 256 128).forward
      ⟨b, 128, downDepth (downDepth D), 2 * mH, 2 * mW⟩ ⟨b, 256, mH, mW⟩ =
      some ⟨b, 256, 2 * mH, 2 * mW⟩ := by
    have := upconv_fwd 256 128 b 128 (downDepth (downDepth D)) mH mW
      (downDepth_pos _) (by omega) (by omega)
    simpa using this
  have h8 : (mkResBlock2D 256 128 1 p).fwdShape ⟨b, 256, 2 * mH, 2 * mW⟩ =
      some ⟨b, 128, 2 * mH, 2 * mW⟩ :=
    block2d_s1 _ _ _ _ _ p (by omega) (by omega)
  have h9 : (UpConv.mk 128 64).forward
      ⟨b, 64, downDepth D, 4 * mH, 4 * mW⟩ ⟨b, 128, 2 * mH, 2 * mW⟩ =
      some ⟨b, 128, 4 * mH, 4 * mW⟩ := by
    rw [show (4 : Nat) * mH = 2 * (2 * mH) from by ring,
      show (4 : Nat) * mW = 2 * (2 * mW) from by ring]
    have := upconv_fwd 128 64 b 64 (downDepth D) (2 * mH) (2 * mW)
      (downDepth_pos _) (by omega) (by omega)
    simpa using this
  have h10 : (mkResBlock2D 128 64 1 p).fwdShape ⟨b, 128, 4 * mH, 4 * mW⟩ =
      some ⟨b, 64, 4 * mH, 4 * mW⟩ :=
    block2d_s1 _ _ _ _ _ p (by omega) (by omega)
  have h11 : (UpConv.mk 64 32).forward
      ⟨b, 32, D, 8 * mH, 8 * mW⟩ ⟨b, 64, 4 * mH, 4 * mW⟩ =
      some ⟨b, 64, 8 * mH, 8 * mW⟩ := by
    rw [show (8 : Nat) * mH = 2 * (4 * mH) from by ring,
      show (8 : Nat) * mW = 2 * (4 * mW) from by ring]
    have := upconv_fwd 64 32 b 32 D (4 * mH) (4 * mW) (by omega) (by omega) (by omega)
    simpa using this
  have h12 : (mkResBlock2D 64 32 1 p).fwdShape ⟨b, 64, 8 * mH, 8 * mW⟩ =
      some ⟨b, 32, 8 * mH, 8 * mW⟩ :=
    block2d_s1 _ _ _ _ _ p (by omega) (by omega)
  have h15 : conv2Shape 32 outC 1 1 0 ⟨b, 32, 8 * mH, 8 * mW⟩ =
      some ⟨b, outC, 8 * mH, 8 * mW⟩ :=
    conv2Shape_k1 _ _ _ _ _ (by omega) (by omega)
  have hnet1 : (ResUNet18 inC outC p).conv1 = (inC, 32) := rfl
  have hnetBD : (ResUNet18 inC outC p).BlocksDown = [mkResBlock3D 32 32 1 p,
      mkResBlock3D 32 64 2 p, mkResBlock3D 64 128 2 p] := rfl
  have hnetBot : (ResUNet18 inC outC p).bottleneck = mkResBlock3D 128 256 2 p := rfl
  have hnetT : (ResUNet18 inC outC p).TransUpBlocks = [UpConv.mk 256 128,
      UpConv.mk 128 64, UpConv.mk 64 32] := rfl
  have hnetU : (ResUNet18 inC outC p).BlocksUp = [mkResBlock2D 256 128 1 p,
      mkResBlock2D 128 64 1 p, mkResBlock2D 64 32 1 p] := rfl
  have hnetFl : (ResUNet18 inC outC p).fl = (32, outC) := rfl
  simp only [ResUNet.forward, ResUNet.forwardAux, hnet1, hnetBD, hnetBot, hnetT, hnetU,
    hnetFl, downLoop, upLoop, popLast_append, h0, h1, h2, h3, h5, h6, h7, h8, h9,
    h10, h11, h12, h15]

theorem forwardLarge (inC outC b D mH mW : Nat) (p : ℚ)
    (hv : validDepth D 5 = true) (hmH : 0 < mH) (hmW : 0 < mW) :
    ResUNet.forward (ResUNet28 inC outC p) ⟨b, inC, D, 32 * mH, 32 * mW⟩ =
      some ⟨b, outC, 32 * mH, 32 * mW⟩ := by
  simp only [validDepth, Bool.and_eq_true, decide_eq_true_eq] at hv
  obtain ⟨hd0, hd1, hd2, hd3, hd4, -⟩ := hv
  have h0 : conv3Shape inC 32 1 (1, 1, 1) ⟨b, inC, D, 32 * mH, 32 * mW⟩ =
      some ⟨b, 32, D, 32 * mH, 32 * mW⟩ :=
    conv3Shape_s1p1 _ _ _ _ _ _ (by omega) (by omega) (by omega)
  have h1 : (mkResBlock3D 32 32 1 p).fwdShape ⟨b, 32, D, 32 * mH, 32 * mW⟩ =
      some ⟨b, 32, D, 32 * mH, 32 * mW⟩ :=
    block3d_s1 _ _ _ _ _ _ p (by omega) (by omega) (by omega)
  have h2 : (mkResBlock3D 32 64 2 p).fwdShape ⟨b, 32, D, 32 * mH, 32 * mW⟩ =
      some ⟨b, 64, downDepth D, 16 * mH, 16 * mW⟩ := by
    rw [show (32 : Nat) * mH = 2 * (16 * mH) from by ring,
      show (32 : Nat) * mW = 2 * (16 * mW) from by ring]
    exact block3d_s2 _ _ _ _ _ _ p hd0 (by omega) (by omega)
  have h3 : (mkResBlock3D 64 128 2 p).fwdShape ⟨b, 64, downDepth D, 16 * mH, 16 * mW⟩ =
      some ⟨b, 128, downDepth (downDepth D), 8 * mH, 8 * mW⟩ := by
    rw [show (16 : Nat) * mH = 2 * (8 * mH) from by ring,
      show (16 : Nat) * mW = 2 * (8 * mW) from by ring]
    exact block3d_s2 _ _ _ _ _ _ p hd1 (by omega) (by omega)
  have h4 : (mkResBlock3D 128 256 2 p).fwdShape
      ⟨b, 128, downDepth (downDepth D), 8 * mH, 8 * mW⟩ =
      some ⟨b, 256, downDepth (downDepth (downDepth D)), 4 * mH, 4 * mW⟩ := by
    rw [show (8 : Nat) * mH = 2 * (4 * mH) from by ring,
      show (8 : Nat) * mW = 2 * (4 * mW) from by ring]
    exact block3d_s2 _ _ _ _ _ _ p hd2 (by omega) (by omega)
  have h4b : (mkResBlock3D 256 512 2 p).fwdShape
      ⟨b, 256, downDepth (downDepth (downDepth D)), 4 * mH, 4 * mW⟩ =
      some ⟨b, 512, downDepth (downDepth (downDepth (downDepth D))), 2 * mH, 2 * mW⟩ := by
    rw [show (4 : Nat) * mH = 2 * (2 * mH) from by ring,
      show (4 : Nat) * mW = 2 * (2 * mW) from by ring]
    exact block3d_s2 _ _ _ _ _ _ p hd3 (by omega) (by omega)
  have h5 : (mkResBlock3D 512 1024 2 p).fwdShape
      ⟨b, 512, downDepth (downDepth (downDepth (downDepth D))), 2 * mH, 2 * mW⟩ =
      some ⟨b, 1024, downDepth (downDepth (downDepth (downDepth (downDepth D)))), mH, mW⟩ := by
    rw [show (2 : Nat) * mH = 2 * (1 * mH) from by ring,
      show (2 : Nat) * mW = 2 * (1 * mW) from by ring]
    have := block3d_s2 512 1024 b (downDepth (downDepth (downDepth (downDepth D))))
      (1 * mH) (1 * mW) p hd4 (by omega) (by omega)
    simpa using this
  have h6 : ResUNet.bottleneckSlice
      ⟨b, 1024, downDepth (downDepth (downDepth (downDepth (downDepth D)))), mH, mW⟩ =
      some ⟨b, 1024, mH, mW⟩ :=
    bottleneckSlice_some _ _ _ _ _ (downDepth_pos _)
  have h7 : (UpConv.mk 1024 512).forward
      ⟨b, 512, downDepth (downDepth (downDepth (downDepth D))), 2 * mH, 2 * mW⟩
      ⟨b, 1024, mH, mW⟩ = some ⟨b, 1024, 2 * mH, 2 * mW⟩ := by
    have := upconv_fwd 1024 512 b 512 (downDepth (downDepth (downDepth (downDepth D))))
      mH mW (downDepth_pos _) (by omega) (by omega)
    simpa using this
  have h8 : (mkResBlock2D 1024 512 1 p).fwdShape ⟨b, 1024, 2 * mH, 2 * mW⟩ =
      some ⟨b, 512, 2 * mH, 2 * mW⟩ :=
    block2d_s1 _ _ _ _ _ p (by omega) (by omega)
  have h9 : (UpConv.mk 512 256).forward
      ⟨b, 256, downDepth (downDepth (downDepth D)), 4 * mH, 4 * mW⟩
      ⟨b, 512, 2 * mH, 2 * mW⟩ = some ⟨b, 512, 4 * mH, 4 * mW⟩ := by
    rw [show (4 : Nat) * mH = 2 * (2 * mH) from by ring,
      show (4 : Nat) * mW = 2 * (2 * mW) from by ring]
    have := upconv_fwd 512 256 b 256 (downDepth (downDepth (downDepth D))) (2 * mH) (2 * mW)
      (downDepth_pos _) (by omega) (by omega)
    simpa using this
  have h10 : (mkResBlock2D 512 256 1 p).fwdShape ⟨b, 512, 4 * mH, 4 * mW⟩ =
      some ⟨b, 256, 4 * mH, 4 * mW⟩ :=
    block2d_s1 _ _ _ _ _ p (by omega) (by omega)
  have h11 : (UpConv.mk 256 128).forward
      ⟨b, 128, downDepth (downDepth D), 8 * mH, 8 * mW⟩ ⟨b, 256, 4 * mH, 4 * mW⟩ =
      some ⟨b, 256, 8 * mH, 8 * mW⟩ := by
    rw [show (8 : Nat) * mH = 2 * (4 * mH) from by ring,
      show (8 : Nat) * mW = 2 * (4 * mW) from by ring]
    have := upconv_fwd 256 128 b 128 (downDepth (downDepth D)) (4 * mH) (4 * mW)
      (downDepth_pos _) (by omega) (by omega)
    simpa using this
  have h12 : (mkResBlock2D 256 128 1 p).fwdShape ⟨b, 256, 8 * mH, 8 * mW⟩ =
      some ⟨b, 128, 8 * mH, 8 * mW⟩ :=
    block2d_s1 _ _ _ _ _ p (by omega) (by omega)
  have h13 : (UpConv.mk 128 64).forward
      ⟨b, 64, downDepth D, 16 * mH, 16 * mW⟩ ⟨b, 128, 8 * mH, 8 * mW⟩ =
      some ⟨b, 128, 16 * mH, 16 * mW⟩ := by
    rw [show (16 : Nat) * mH = 2 * (8 * mH) from by ring,
      show (16 : Nat) * mW = 2 * (8 * mW) from by ring]
    have := upconv_fwd 128 64 b 64 (downDepth D) (8 * mH) (8 * mW)
      (by omega) (by omega) (by omega)
    simpa using this
  have h14 : (mkResBlock2D 128 64 1 p).fwdShape ⟨b, 128, 16 * mH, 16 * mW⟩ =
      some ⟨b, 64, 16 * mH, 16 * mW⟩ :=
    block2d_s1 _ _ _ _ _ p (by omega) (by omega)
  have h16 : (UpConv.mk 64 32).forward
      ⟨b, 32, D, 32 * mH, 32 * mW⟩ ⟨b, 64, 16 * mH, 16 * mW⟩ =
      some ⟨b, 64, 32 * mH, 32 * mW⟩ := by
    rw [show (32 : Nat) * mH = 2 * (16 * mH) from by ring,
      show (32 : Nat) * mW = 2 * (16 * mW) from by ring]
    have := upconv_fwd 64 32 b 32 D (16 * mH) (16 * mW) (by omega) (by omega) (by omega)
    simpa using this
  have h17 : (mkResBlock2D 64 32 1 p).fwdShape ⟨b, 64, 32 * mH, 32 * mW⟩ =
      some ⟨b, 32, 32 * mH, 32 * mW⟩ :=
    block2d_s1 _ _ _ _ _ p (by omega) (by omega)
  have h18 : conv2Shape 32 outC 1 1 0 ⟨b, 32, 32 * mH, 32 * mW⟩ =
      some ⟨b, outC, 32 * mH, 32 * mW⟩ :=
    conv2Shape_k1 _ _ _ _ _ (by omega) (by omega)
  have hnet1 : (ResUNet28 inC outC p).conv1 = (inC, 32) := rfl
  have hnetBD : (ResUNet28 inC outC p).BlocksDown = [mkResBlock3D 32 32 1 p,
      mkResBlock3D 32 64 2 p, mkResBlock3D 64 128 2 p, mkResBlock3D 128 256 2 p,
      mkResBlock3D 256 512 2 p] := rfl
  have hnetBot : (ResUNet28 inC outC p).bottleneck = mkResBlock3D 512 1024 2 p := rfl
  have hnetT : (ResUNet28 inC outC p).TransUpBlocks = [UpConv.mk 1024 512,
      UpConv.mk 512 256, UpConv.mk 256 128, UpConv.mk 128 64, UpConv.mk 64 32] := rfl
  have hnetU : (ResUNet28 inC outC p).BlocksUp = [mkResBlock2D 1024 512 1 p,
      mkResBlock2D 512 256 1 p, mkResBlock2D 256 128 1 p, mkResBlock2D 128 64 1 p,
      mkResBlock2D 64 32 1 p] := rfl
  have hnetFl : (ResUNet28 inC outC p).fl = (32, outC) := rfl
  simp only [ResUNet.forward, ResUNet.forwardAux, hnet1, hnetBD, hnetBot, hnetT, hnetU,
    hnetFl, downLoop, upLoop, popLast_append, h0, h1, h2, h3, h4, h4b, h5, h6, h7, h8,
    h9, h10, h11, h12, h13, h14, h16, h17, h18]

/-- C1 (counterexample): the claim fails as stated.  Both inputs below satisfy
its hypotheses for the medium preset (N = 4): depth odd, height and width
divisible by 2 to the (N-1) = 8.  The first input (depth 15, spatial 16) fails
because after the three stride-2 contracting stages the depth is already 1, so
the stride-2 bottleneck convolution (kernel 3, zero depth padding) cannot be
applied.  The second input (depth 31, an admissible depth, spatial 8) fails
because the bottleneck also halves height and width, so divisibility by
2 to the (N-1) is not enough: the skip slice and the upsampled tensor disagree
at the first concatenation. -/
theorem c1_counterexample :
    ((15 % 2 = 1) ∧ 2 ^ (presetStages Preset.medium - 1) ∣ 16 ∧
      ResUNet.forward (presetNet Preset.medium 1 5 0) ⟨1, 1, 15, 16, 16⟩ = none) ∧
    ((31 % 2 = 1) ∧ 2 ^ (presetStages Preset.medium - 1) ∣ 8 ∧
      ResUNet.forward (presetNet Preset.medium 1 5 0) ⟨1, 1, 31, 8, 8⟩ = none) := by
  constructor
  · exact ⟨by decide, by decide, by decide⟩
  · exact ⟨by decide, by decide, by decide⟩

/-- C1 (amended): for every preset and every input volume whose depth is odd
and admissible (every one of the N stride-2 3D convolutions, the N-1
downsampling stages plus the bottleneck, receives depth at least 3) and whose
height and width are positive and divisible by 2 to the N, where N is the
number of contracting stages of the preset, forward returns a tensor of shape
(batch, out_channels, height, width). -/
theorem c1_output_shape (pr : Preset) (inC outC : Nat) (p : ℚ) (b D H W : Nat)
    (hD : D % 2 = 1) (hv : validDepth D (presetStages pr) = true)
    (hH : 2 ^ presetStages pr ∣ H) (hH0 : 0 < H)
    (hW : 2 ^ presetStages pr ∣ W) (hW0 : 0 < W) :
    ResUNet.forward (presetNet pr inC outC p) ⟨b, inC, D, H, W⟩ =
      some ⟨b, outC, H, W⟩ := by
  cases pr with
  | small =>
    obtain ⟨mH, rfl⟩ := hH
    obtain ⟨mW, rfl⟩ := hW
    rw [show ((2 : Nat) ^ presetStages Preset.small) = 8 from by decide] at hH0 hW0 ⊢
    exact forwardSmall inC outC b D mH mW p hv (by omega) (by omega)
  | medium =>
    obtain ⟨mH, rfl⟩ := hH
    obtain ⟨mW, rfl⟩ := hW
    rw [show ((2 : Nat) ^ presetStages Preset.medium) = 16 from by decide] at hH0 hW0 ⊢
    exact forwardMedium inC outC b D mH mW p hv (by omega) (by omega)
  | large =>
    obtain ⟨mH, rfl⟩ := hH
    obtain ⟨mW, rfl⟩ := hW
    rw [show ((2 : Nat) ^ presetStages Preset.large) = 32 from by decide] at hH0 hW0 ⊢
    exact forwardLarge inC outC b D mH mW p hv (by omega) (by omega)

/-- C1 (witness): the small preset on the input the repository itself uses,
(6, 1, 15, 96, 96), returns shape (6, 2, 96, 96). -/
theorem c1_output_shape_witness :
    (15 % 2 = 1) ∧ validDepth 15 (presetStages Preset.small) = true ∧
    2 ^ presetStages Preset.small ∣ 96 ∧ 0 < 96 ∧
    ResUNet.forward (presetNet Preset.small 1 2 0) ⟨6, 1, 15, 96, 96⟩ =
      some ⟨6, 2, 96, 96⟩ :=
  ⟨by decide, by decide, by decide, by decide,
    c1_output_shape Preset.small 1 2 0 6 15 96 96 (by decide) (by decide)
      (by decide) (by decide) (by decide) (by decide)⟩

/-- C2 (counterexample): the medium preset with in_channels 1, out_channels 5
does not complete on an input of shape (2, 1, 15, 64, 64): the depth sequence
along the contracting path is 15, 7, 3, 1, so the bottleneck stride-2
convolution (kernel 3, zero depth padding) is applied to a depth-1 tensor and
fails.  In particular the output is not (2, 5, 64, 64). -/
theorem c2_counterexample :
    ResUNet.forward (ResUNet23 1 5 0) ⟨2, 1, 15, 64, 64⟩ = none ∧
    ResUNet.forward (ResUNet23 1 5 0) ⟨2, 1, 15, 64, 64⟩ ≠ some ⟨2, 5, 64, 64⟩ := by
  constructor
  · decide
  · decide

/-- C2 (amended): the medium preset (ResUNet23) with in_channels 1 and
out_channels 5 completes on an input of shape (2, 1, 31, 64, 64) — depth 31
instead of the claimed 15 — and returns a tensor of shape (2, 5, 64, 64). -/
theorem c2_medium_concrete :
    ResUNet.forward (ResUNet23 1 5 0) ⟨2, 1, 31, 64, 64⟩ = some ⟨2, 5, 64, 64⟩ := by
  decide

theorem oddChainD_odd (d m : Nat) (h : oddChainD d m = true) : d % 2 = 1 := by
  cases m with
  | zero => simpa [oddChainD] using h
  | succ m =>
    simp only [oddChainD, Bool.and_eq_true, decide_eq_true_eq] at h
    exact h.1.1

/-- C3 (counterexample): the centering consequence fails as stated.  Depth 9
is odd, but one stride-2 downsampling yields depth 4, and the central-slice
index 4 / 2 = 2 of that feature map is centred (receptive field) on input
slice 5, not on the numerically central slice 9 / 2 = 4 of the input. -/
theorem c3_counterexample :
    (9 % 2 = 1) ∧ iterDepth 1 9 = 4 ∧
    iterCenter 1 (iterDepth 1 9 / 2) ≠ 9 / 2 := by
  refine ⟨by decide, by decide, by decide⟩

/-- C3 (amended): the first convolution of a 3D residual block pads height
and width by 1 always and pads depth by 1 only when the stride is 1 (zero
depth padding when the stride is 2); consequently, for every 3D feature map
produced by repeated stride-2 downsampling of an odd-depth input along which
every intermediate depth stays odd (and is at least 3 before each reduction),
the central-slice index depth / 2 is centred, through the composed receptive
fields, exactly on the numerically central slice D / 2 of the original
volume. -/
theorem c3_central_slice_centered (i o s : Nat) (p : ℚ) (m D : Nat)
    (hchain : oddChainD D m = true) :
    ((mkResBlock3D i o s p).padding = if s = 1 then (1, 1, 1) else (0, 1, 1)) ∧
    ((mkResBlock3D i o 2 p).padding = (0, 1, 1)) ∧
    ((mkResBlock3D i o 1 p).padding = (1, 1, 1)) ∧
    iterCenter m (iterDepth m D / 2) = D / 2 := by
  refine ⟨rfl, rfl, rfl, ?_⟩
  induction m generalizing D with
  | zero => simp [iterCenter, iterDepth]
  | succ m ih =>
    simp only [oddChainD, Bool.and_eq_true, decide_eq_true_eq] at hchain
    obtain ⟨⟨hodd, h3⟩, hrest⟩ := hchain
    have hmid := ih (downDepth D) hrest
    have hodd1 : downDepth D % 2 = 1 := oddChainD_odd _ _ hrest
    show iterCenter (m + 1) (iterDepth (m + 1) D / 2) = D / 2
    have e1 : iterDepth (m + 1) D = iterDepth m (downDepth D) := rfl
    have e2 : ∀ j, iterCenter (m + 1) j = downCenterMap (iterCenter m j) := fun _ => rfl
    rw [e1, e2, hmid]
    unfold downCenterMap rfCenter downDepth
    unfold downDepth at hodd1
    omega

/-- C3 (witness): depth 15 through two stride-2 reductions (15, 7, 3, all
odd): the central index 1 of the depth-3 map is centred on slice 7 = 15 / 2
of the original volume; and the stride-2 block has depth padding 0 while the
stride-1 block has depth padding 1. -/
theorem c3_central_slice_centered_witness :
    ((mkResBlock3D 32 64 2 0).padding = if 2 = 1 then (1, 1, 1) else (0, 1, 1)) ∧
    ((mkResBlock3D 32 64 2 0).padding = (0, 1, 1)) ∧
    ((mkResBlock3D 32 64 1 0).padding = (1, 1, 1)) ∧
    iterCenter 2 (iterDepth 2 15 / 2) = 15 / 2 :=
  c3_central_slice_centered 32 64 2 0 2 15 (by decide)

/-- C4: central-slice selection is deterministic: the index computed by
`UpConv.forward` (line 110) is always `skip.size(2) // 2`, and the first
expanding stage slices the bottleneck output at the same function of its
depth, `n_slices // 2`; for an odd depth `2k+1` the index is the exact
midpoint `k`, and for an even depth `2k` it is `k`, the slice immediately
after the midpoint. -/
theorem c4_central_slice_deterministic (s t : Shape5) (j k : Nat)
    (hs : s.d = 2 * j + 1) (ht : t.d = 2 * k) :
    UpConv.centralInx s = s.d / 2 ∧
    ResUNet.bottleneckSlice s = slice5 s (s.d / 2) ∧
    UpConv.centralInx s = j ∧
    UpConv.centralInx t = k := by
  refine ⟨rfl, rfl, ?_, ?_⟩
  · simp [UpConv.centralInx, hs]
    omega
  · simp [UpConv.centralInx, ht]

/-- C4 (witness): for a skip tensor of odd depth 5 the selected index is 2,
for one of even depth 6 it is 3. -/
theorem c4_central_slice_deterministic_witness :
    UpConv.centralInx ⟨1, 1, 5, 4, 4⟩ = (5 : Nat) / 2 ∧
    ResUNet.bottleneckSlice ⟨1, 1, 5, 4, 4⟩ = slice5 ⟨1, 1, 5, 4, 4⟩ (5 / 2) ∧
    UpConv.centralInx ⟨1, 1, 5, 4, 4⟩ = 2 ∧
    UpConv.centralInx ⟨1, 1, 6, 4, 4⟩ = 3 :=
  c4_central_slice_deterministic ⟨1, 1, 5, 4, 4⟩ ⟨1, 1, 6, 4, 4⟩ 2 3 rfl rfl

theorem popLast_length (l : List Shape5) (a : Shape5) (r : List Shape5)
    (h : popLast l = some (a, r)) : r.length + 1 = l.length := by
  unfold popLast at h
  cases hl : l.getLast? with
  | none => rw [hl] at h; simp at h
  | some x =>
    rw [hl] at h
    have hr : r = l.dropLast := by
      injection h with h
      rw [Prod.mk.injEq] at h
      exact h.2.symm
    have hne : l ≠ [] := by
      intro hnil
      rw [hnil] at hl
      simp at hl
    rw [hr, List.length_dropLast]
    have := List.length_pos.mpr hne
    omega

theorem forwardAux_drained (net : ResUNet) (x : Shape5) (out : Shape4) (rest : List Shape5)
    (hlen : net.TransUpBlocks.length = net.BlocksDown.length)
    (h : net.forwardAux x = some (out, rest)) : rest = [] := by
  unfold ResUNet.forwardAux at h
  cases h0 : conv3Shape net.conv1.1 net.conv1.2 1 (1, 1, 1) x with
  | none => rw [h0] at h; simp at h
  | some o0 =>
    rw [h0] at h
    simp only at h
    cases h1 : downLoop net.BlocksDown o0 [] with
    | none => rw [h1] at h; simp at h
    | some pr =>
      obtain ⟨o1, skips⟩ := pr
      rw [h1] at h
      simp only at h
      have hskips : skips.length = net.BlocksDown.length := by
        have := downLoop_length net.BlocksDown o0 [] o1 skips h1
        simpa using this
      cases h2 : net.bottleneck.fwdShape o1 with
      | none => rw [h2] at h; simp at h
      | some o2 =>
        rw [h2] at h
        simp only at h
        cases hT : net.TransUpBlocks with
        | nil => rw [hT] at h; simp at h
        | cons t ts =>
          rw [hT] at h
          cases hU : net.BlocksUp with
          | nil => rw [hU] at h; simp at h
          | cons blk blks =>
            rw [hU] at h
            simp only at h
            cases hp : popLast skips with
            | none => rw [hp] at h; simp at h
            | some pr2 =>
              obtain ⟨skip, rest0⟩ := pr2
              rw [hp] at h
              simp only at h
              cases hbs : ResUNet.bottleneckSlice o2 with
              | none => rw [hbs] at h; simp at h
              | some xc =>
                rw [hbs] at h
                simp only at h
                cases hu : t.forward skip xc with
                | none => rw [hu] at h; simp at h
                | some o3 =>
                  rw [hu] at h
                  simp only at h
                  cases hb2 : blk.fwdShape o3 with
                  | none => rw [hb2] at h; simp at h
                  | some o4 =>
                    rw [hb2] at h
                    simp only at h
                    have hup := upLoop_length ts blks rest0 o4 out rest h
                    have hpop := popLast_length skips skip rest0 hp
                    have hT' : net.TransUpBlocks.length = ts.length + 1 := by
                      rw [hT]; simp
                    have : rest.length = 0 := by omega
                    exact List.length_eq_zero.mp this

/-- C5: in every preset the number of contracting stages equals the number of
expanding stages; the contracting loop pushes exactly one skip tensor per
stage (so after it the stack length equals the number of contracting stages),
and each expanding stage pops exactly one (last in, first out), so whenever
the forward pass completes, the skip stack is fully drained. -/
theorem c5_skip_stack_drained (pr : Preset) (inC outC : Nat) (p : ℚ)
    (x : Shape5) (out : Shape4) (rest : List Shape5)
    (h : (presetNet pr inC outC p).forwardAux x = some (out, rest)) :
    rest = [] ∧
    (presetNet pr inC outC p).BlocksDown.length = presetStages pr ∧
    (presetNet pr inC outC p).TransUpBlocks.length = presetStages pr ∧
    (presetNet pr inC outC p).BlocksUp.length = presetStages pr ∧
    (∀ s0 out2 skips, downLoop (presetNet pr inC outC p).BlocksDown s0 [] =
      some (out2, skips) → skips.length = presetStages pr) := by
  have hDlen : (presetNet pr inC outC p).BlocksDown.length = presetStages pr := by
    cases pr <;> rfl
  have hTlen : (presetNet pr inC outC p).TransUpBlocks.length = presetStages pr := by
    cases pr <;> rfl
  have hUlen : (presetNet pr inC outC p).BlocksUp.length = presetStages pr := by
    cases pr <;> rfl
  refine ⟨forwardAux_drained _ _ _ _ (by omega) h, hDlen, hTlen, hUlen, ?_⟩
  intro s0 out2 skips hdl
  have := downLoop_length _ s0 [] out2 skips hdl
  simpa [hDlen] using this

/-- C5 (witness): the small preset on input (6, 1, 15, 96, 96) completes with
an empty leftover skip stack; its loops all have 3 stages. -/
theorem c5_skip_stack_drained_witness :
    ([] : List Shape5) = [] ∧
    (presetNet Preset.small 1 2 0).BlocksDown.length = presetStages Preset.small ∧
    (presetNet Preset.small 1 2 0).TransUpBlocks.length = presetStages Preset.small ∧
    (presetNet Preset.small 1 2 0).BlocksUp.length = presetStages Preset.small ∧
    (∀ s0 out2 skips, downLoop (presetNet Preset.small 1 2 0).BlocksDown s0 [] =
      some (out2, skips) → skips.length = presetStages Preset.small) :=
  c5_skip_stack_drained Preset.small 1 2 0 ⟨6, 1, 15, 96, 96⟩ ⟨6, 32, 96, 96⟩ []
    (by decide)

/-- C7: whenever the up-convolution fusion succeeds, the 2D input had the
channel count of the kernel-2 stride-2 transposed convolution, and the result
has the spatial size of the 2D input doubled and channel count equal to the
skip slice channels plus the transposed convolution output channels (the skip
slice concatenated first). -/
theorem c7_upconv_fusion (u : UpConv) (skip : Shape5) (x out : Shape4)
    (h : u.forward skip x = some out) :
    x.c = u.in_channels ∧ out = ⟨x.n, skip.c + u.out_channels, 2 * x.h, 2 * x.w⟩ := by
  unfold UpConv.forward at h
  cases hs : slice5 skip (UpConv.centralInx skip) with
  | none => rw [hs] at h; simp at h
  | some sl =>
    rw [hs] at h
    simp only at h
    cases htc : transConv2Shape u.in_channels u.out_channels 2 2 0 x with
    | none => rw [htc] at h; simp at h
    | some tr =>
      rw [htc] at h
      simp only at h
      unfold slice5 at hs
      unfold transConv2Shape at htc
      split at hs
      · split at htc
        · rename_i hcond1 hcond2
          obtain ⟨hc, hh, hw⟩ := hcond2
          injection hs with hs
          injection htc with htc
          subst hs
          subst htc
          unfold cat2 at h
          split at h
          · rename_i hcond3
            simp only [Shape4.mk.injEq] at hcond3
            injection h with h
            subst h
            obtain ⟨hn, hh2, hw2⟩ := hcond3
            refine ⟨hc, ?_⟩
            simp only [Shape4.mk.injEq]
            refine ⟨hn, trivial, ?_, ?_⟩ <;> omega
          · simp at h
        · simp at htc
      · simp at hs

/-- C7 (witness): an UpConv with 512 input and 256 output channels on a skip
tensor of shape (2, 256, 3, 8, 8) and a 2D tensor of shape (2, 512, 4, 4)
yields (2, 256 + 256, 8, 8). -/
theorem c7_upconv_fusion_witness :
    (⟨2, 512, 4, 4⟩ : Shape4).c = (UpConv.mk 512 256).in_channels ∧
    (⟨2, 512, 8, 8⟩ : Shape4) =
      ⟨(⟨2, 512, 4, 4⟩ : Shape4).n, (⟨2, 256, 3, 8, 8⟩ : Shape5).c +
        (UpConv.mk 512 256).out_channels,
        2 * (⟨2, 512, 4, 4⟩ : Shape4).h, 2 * (⟨2, 512, 4, 4⟩ : Shape4).w⟩ :=
  c7_upconv_fusion (UpConv.mk 512 256) ⟨2, 256, 3, 8, 8⟩ ⟨2, 512, 4, 4⟩
    ⟨2, 512, 8, 8⟩ (by decide)

/-- C8: every residual block performs, in order: normalize, activate, first
convolution (carrying the block stride), then in the 2D variant only a
dropout, then normalize, activate, second convolution (stride 1), dropout,
then (when the projection shortcut is installed) the shortcut convolution and
normalization on the residual, and finally the addition; in particular the 3D
block applies dropout exactly once and the 2D block exactly twice. -/
theorem c8_block_op_order (i o s : Nat) (p : ℚ) :
    ((mkResBlock3D i o s p).expr.ops =
      [Op.norm, Op.act, Op.conv s, Op.norm, Op.act, Op.conv 1, Op.dropout] ++
        (if (mkResBlock3D i o s p).downsample then [Op.conv s, Op.norm] else []) ++
        [Op.add]) ∧
    ((mkResBlock2D i o s p).expr.ops =
      [Op.norm, Op.act, Op.conv s, Op.dropout, Op.norm, Op.act, Op.conv 1, Op.dropout] ++
        (if (mkResBlock2D i o s p).downsample then [Op.conv s, Op.norm] else []) ++
        [Op.add]) ∧
    (mkResBlock3D i o s p).expr.ops.count Op.dropout = 1 ∧
    (mkResBlock2D i o s p).expr.ops.count Op.dropout = 2 := by
  by_cases hds : s ≠ 1 ∨ i ≠ o <;>
    simp [mkResBlock3D, mkResBlock2D, ResBlock3D.expr, ResBlock2D.expr,
      ResBlock3D.mainPath, ResBlock2D.mainPath, ResBlock3D.shortcut, ResBlock2D.shortcut,
      T3.ops, T2.ops, hds, List.count_cons, List.count_append, List.count_nil]

/-- C10: for every in_channels, out_channels and dropout probability p, the
medium preset factory ResUNet23 builds exactly the network that the ResUNet
constructor builds when called with only in_channels, out_channels and p and
every other argument left at its default (down_blocks [32, 64, 128, 256],
up_blocks [256, 128, 64, 32], bottleneck 512). -/
theorem c10_resunet23_is_default (inC outC : Nat) (p : ℚ) :
    ResUNet23 inC outC p = mkResUNetDefault inC outC p ∧
    (ResUNet23 inC outC p).down_blocks = [32, 64, 128, 256] ∧
    (ResUNet23 inC outC p).up_blocks = [256, 128, 64, 32] ∧
    (ResUNet23 inC outC p).bottleneck = mkResBlock3D 256 512 2 p :=
  ⟨rfl, rfl, rfl, rfl⟩

theorem convDim_pos (a k s p v : Nat) (h : convDim a k s p = some v) : 1 ≤ v := by
  unfold convDim at h
  split at h
  · injection h with h
    subst h
    exact Nat.le_add_left 1 _
  · simp at h

theorem conv3Shape_props (i o s : Nat) (pad : Nat × Nat × Nat) (x y : Shape5)
    (h : conv3Shape i o s pad x = some y) :
    x.c = i ∧ y.c = o ∧ y.n = x.n ∧ 1 ≤ y.d ∧ 1 ≤ y.h ∧ 1 ≤ y.w := by
  unfold conv3Shape at h
  split at h
  · rename_i hc
    split at h
    · rename_i dv hv wv hd hh hw
      injection h with h
      subst h
      exact ⟨hc, rfl, rfl, convDim_pos _ _ _ _ _ hd, convDim_pos _ _ _ _ _ hh,
        convDim_pos _ _ _ _ _ hw⟩
    · simp at h
  · simp at h

theorem conv3Shape_none (i o s : Nat) (pad : Nat × Nat × Nat) (x : Shape5)
    (hc : ¬ x.c = i) : conv3Shape i o s pad x = none := by
  unfold conv3Shape
  rw [if_neg hc]

theorem mainPath3_shape (blk : ResBlock3D) (x : Shape5) :
    T3.shape blk.mainPath x =
      match conv3Shape blk.in_channels blk.out_channels blk.stride blk.padding x with
      | some y => conv3Shape blk.out_channels blk.out_channels 1 (1, 1, 1) y
      | none => none := by
  unfold ResBlock3D.mainPath
  by_cases hc : x.c = blk.in_channels
  · simp only [T3.shape, hc, if_true]
    cases hy : conv3Shape blk.in_channels blk.out_channels blk.stride blk.padding x with
    | none => simp
    | some y =>
      have hyc := (conv3Shape_props _ _ _ _ _ _ hy).2.1
      simp [hyc]
  · rw [conv3Shape_none _ _ _ _ _ hc]
    simp [T3.shape, hc]

theorem shortcut3_shape (blk : ResBlock3D) (x : Shape5) (hds : blk.downsample = true) :
    T3.shape blk.shortcut x =
      conv3Shape blk.in_channels blk.out_channels blk.stride blk.padding x := by
  unfold ResBlock3D.shortcut
  rw [hds]
  simp only [if_true, T3.shape]
  cases hy : conv3Shape blk.in_channels blk.out_channels blk.stride blk.padding x with
  | none => simp
  | some y =>
    have hyc := (conv3Shape_props _ _ _ _ _ _ hy).2.1
    simp [hyc]

theorem conv3Shape_s1p1_inv (i o : Nat) (x y : Shape5)
    (h : conv3Shape i o 1 (1, 1, 1) x = some y) :
    y = ⟨x.n, o, x.d, x.h, x.w⟩ := by
  obtain ⟨n, c, dd, hh, ww⟩ := x
  unfold conv3Shape convDim at h
  simp only at h
  split at h
  · split at h
    · rename_i hd hh2 hw2
      split at hd
      · split at hh2
        · split at hw2
          · injection hd with hd
            injection hh2 with hh2
            injection hw2 with hw2
            injection h with h
            subst h
            simp only [Shape5.mk.injEq]
            refine ⟨trivial, trivial, ?_, ?_, ?_⟩ <;> omega
          · simp at hw2
        · simp at hh2
      · simp at hd
    · simp at h
  · simp at h

theorem block3d_match (i o s : Nat) (p : ℚ) (x u v : Shape5)
    (hm : T3.shape (mkResBlock3D i o s p).mainPath x = some u)
    (hs : T3.shape (mkResBlock3D i o s p).shortcut x = some v) : u = v := by
  by_cases hds : (mkResBlock3D i o s p).downsample = true
  · rw [mainPath3_shape] at hm
    rw [shortcut3_shape _ _ hds] at hs
    rw [hs] at hm
    simp only at hm
    have hv := conv3Shape_props _ _ _ _ _ _ hs
    have hu := conv3Shape_s1p1_inv _ _ _ _ hm
    obtain ⟨vn, vc, vd, vh, vw⟩ := v
    simp only [mkResBlock3D] at hv hu
    rw [hu, hv.2.1]
  · have hcond : s = 1 ∧ i = o := by
      simp only [mkResBlock3D, decide_eq_true_eq] at hds
      push_neg at hds
      exact hds
    obtain ⟨rfl, rfl⟩ := hcond
    have hdsf : (mkResBlock3D i i 1 p).downsample = false := by
      simp [mkResBlock3D]
    have hvx : v = x := by
      unfold ResBlock3D.shortcut at hs
      rw [hdsf] at hs
      simp only [Bool.false_eq_true, if_false, T3.shape] at hs
      injection hs with hs
      exact hs.symm
    rw [mainPath3_shape] at hm
    cases hy : conv3Shape (mkResBlock3D i i 1 p).in_channels (mkResBlock3D i i 1 p).out_channels
        (mkResBlock3D i i 1 p).stride (mkResBlock3D i i 1 p).padding x with
    | none => rw [hy] at hm; simp at hm
    | some y =>
      rw [hy] at hm
      simp only at hm
      have hxc := (conv3Shape_props _ _ _ _ _ _ hy).1
      have hpad : (mkResBlock3D i i 1 p).padding = (1, 1, 1) := by
        simp [mkResBlock3D]
      rw [hpad] at hy
      have hyx : y = ⟨x.n, (mkResBlock3D i i 1 p).out_channels, x.d, x.h, x.w⟩ :=
        conv3Shape_s1p1_inv _ _ _ _ hy
      have hu : u = ⟨y.n, (mkResBlock3D i i 1 p).out_channels, y.d, y.h, y.w⟩ :=
        conv3Shape_s1p1_inv _ _ _ _ hm
      rw [hvx, hu, hyx]
      simp only [mkResBlock3D] at hxc ⊢
      obtain ⟨xn, xc, xd, xh, xw⟩ := x
      simp only at hxc ⊢
      rw [hxc]

theorem conv2Shape_props (i o k s pp : Nat) (x y : Shape4)
    (h : conv2Shape i o k s pp x = some y) :
    x.c = i ∧ y.c = o ∧ y.n = x.n ∧ 1 ≤ y.h ∧ 1 ≤ y.w := by
  unfold conv2Shape at h
  split at h
  · rename_i hc
    split at h
    · rename_i hv wv hh hw
      injection h with h
      subst h
      exact ⟨hc, rfl, rfl, convDim_pos _ _ _ _ _ hh, convDim_pos _ _ _ _ _ hw⟩
    · simp at h
  · simp at h

theorem conv2Shape_none (i o k s pp : Nat) (x : Shape4)
    (hc : ¬ x.c = i) : conv2Shape i o k s pp x = none := by
  unfold conv2Shape
  rw [if_neg hc]

theorem mainPath2_shape (blk : ResBlock2D) (x : Shape4) :
    T2.shape blk.mainPath x =
      match conv2Shape blk.in_channels blk.out_channels 3 blk.stride 1 x with
      | some y => conv2Shape blk.out_channels blk.out_channels 3 1 1 y
      | none => none := by
  unfold ResBlock2D.mainPath
  by_cases hc : x.c = blk.in_channels
  · simp only [T2.shape, hc, if_true]
    cases hy : conv2Shape blk.in_channels blk.out_channels 3 blk.stride 1 x with
    | none => simp
    | some y =>
      have hyc := (conv2Shape_props _ _ _ _ _ _ _ hy).2.1
      simp [hyc]
  · rw [conv2Shape_none _ _ _ _ _ _ hc]
    simp [T2.shape, hc]

theorem shortcut2_shape (blk : ResBlock2D) (x : Shape4) (hds : blk.downsample = true) :
    T2.shape blk.shortcut x = conv2Shape blk.in_channels blk.out_channels 1 blk.stride 0 x := by
  unfold ResBlock2D.shortcut
  rw [hds]
  simp only [if_true, T2.shape]
  cases hy : conv2Shape blk.in_channels blk.out_channels 1 blk.stride 0 x with
  | none => simp
  | some y =>
    have hyc := (conv2Shape_props _ _ _ _ _ _ _ hy).2.1
    simp [hyc]

theorem convDim_k3p1_eq_k1p0 (a s : Nat) : convDim a 3 s 1 = convDim a 1 s 0 := by
  unfold convDim
  by_cases ha : 1 ≤ a
  · rw [if_pos (by omega), if_pos (by omega)]
    norm_num
    congr 1
  · rw [if_neg (by omega), if_neg (by omega)]

theorem conv2Shape_k1_eq_k3 (i o s : Nat) (x : Shape4) :
    conv2Shape i o 1 s 0 x = conv2Shape i o 3 s 1 x := by
  unfold conv2Shape
  rw [convDim_k3p1_eq_k1p0, convDim_k3p1_eq_k1p0]

theorem conv2Shape_s1p1_inv (i o : Nat) (x y : Shape4)
    (h : conv2Shape i o 3 1 1 x = some y) :
    y = ⟨x.n, o, x.h, x.w⟩ := by
  obtain ⟨n, c, hh, ww⟩ := x
  unfold conv2Shape convDim at h
  simp only at h
  split at h
  · split at h
    · rename_i hh2 hw2
      split at hh2
      · split at hw2
        · injection hh2 with hh2
          injection hw2 with hw2
          injection h with h
          subst h
          simp only [Shape4.mk.injEq]
          refine ⟨trivial, trivial, ?_, ?_⟩ <;> omega
        · simp at hw2
      · simp at hh2
    · simp at h
  · simp at h

theorem block2d_match (i o s : Nat) (p : ℚ) (x u v : Shape4)
    (hm : T2.shape (mkResBlock2D i o s p).mainPath x = some u)
    (hs : T2.shape (mkResBlock2D i o s p).shortcut x = some v) : u = v := by
  by_cases hds : (mkResBlock2D i o s p).downsample = true
  · rw [mainPath2_shape] at hm
    rw [shortcut2_shape _ _ hds] at hs
    rw [conv2Shape_k1_eq_k3] at hs
    rw [hs] at hm
    simp only at hm
    have hv := conv2Shape_props _ _ _ _ _ _ _ hs
    have hu := conv2Shape_s1p1_inv _ _ _ _ hm
    obtain ⟨vn, vc, vh, vw⟩ := v
    simp only [mkResBlock2D] at hv hu
    rw [hu, hv.2.1]
  · have hcond : s = 1 ∧ i = o := by
      simp only [mkResBlock2D, decide_eq_true_eq] at hds
      push_neg at hds
      exact hds
    obtain ⟨rfl, rfl⟩ := hcond
    have hdsf : (mkResBlock2D i i 1 p).downsample = false := by
      simp [mkResBlock2D]
    have hvx : v = x := by
      unfold ResBlock2D.shortcut at hs
      rw [hdsf] at hs
      simp only [Bool.false_eq_true, if_false, T2.shape] at hs
      injection hs with hs
      exact hs.symm
    rw [mainPath2_shape] at hm
    cases hy : conv2Shape (mkResBlock2D i i 1 p).in_channels (mkResBlock2D i i 1 p).out_channels
        3 (mkResBlock2D i i 1 p).stride 1 x with
    | none => rw [hy] at hm; simp at hm
    | some y =>
      rw [hy] at hm
      simp only at hm
      have hxc := (conv2Shape_props _ _ _ _ _ _ _ hy).1
      have hstr : (mkResBlock2D i i 1 p).stride = 1 := rfl
      rw [hstr] at hy
      have hyx : y = ⟨x.n, (mkResBlock2D i i 1 p).out_channels, x.h, x.w⟩ :=
        conv2Shape_s1p1_inv _ _ _ _ hy
      have hu : u = ⟨y.n, (mkResBlock2D i i 1 p).out_channels, y.h, y.w⟩ :=
        conv2Shape_s1p1_inv _ _ _ _ hm
      rw [hvx, hu, hyx]
      simp only [mkResBlock2D] at hxc ⊢
      obtain ⟨xn, xc, xh, xw⟩ := x
      simp only at hxc ⊢
      rw [hxc]

/-- C6: in both residual block variants the shortcut path is the identity
exactly when stride is 1 and in_channels equals out_channels, and otherwise a
projection (a convolution with the matching stride followed by a
normalization); whenever both the main path and the shortcut produce outputs,
their shapes are equal, so the final addition never fails with a shape
mismatch and the block returns the main-path shape. -/
theorem c6_shortcut_shape_match (i o s : Nat) (p : ℚ) (x5 u v : Shape5) (x4 u2 v2 : Shape4)
    (h3m : T3.shape (mkResBlock3D i o s p).mainPath x5 = some u)
    (h3s : T3.shape (mkResBlock3D i o s p).shortcut x5 = some v)
    (h2m : T2.shape (mkResBlock2D i o s p).mainPath x4 = some u2)
    (h2s : T2.shape (mkResBlock2D i o s p).shortcut x4 = some v2) :
    ((mkResBlock3D i o s p).downsample = false ↔ s = 1 ∧ i = o) ∧
    ((mkResBlock2D i o s p).downsample = false ↔ s = 1 ∧ i = o) ∧
    u = v ∧ u2 = v2 ∧
    (mkResBlock3D i o s p).fwdShape x5 = some u ∧
    (mkResBlock2D i o s p).fwdShape x4 = some u2 := by
  have huv := block3d_match i o s p x5 u v h3m h3s
  have huv2 := block2d_match i o s p x4 u2 v2 h2m h2s
  refine ⟨?_, ?_, huv, huv2, ?_, ?_⟩
  · simp only [mkResBlock3D, decide_eq_false_iff_not]
    push_neg
    rfl
  · simp only [mkResBlock2D, decide_eq_false_iff_not]
    push_neg
    rfl
  · have hrw : (mkResBlock3D i o s p).fwdShape x5 =
        match T3.shape (mkResBlock3D i o s p).mainPath x5,
          T3.shape (mkResBlock3D i o s p).shortcut x5 with
        | some a, some bb => if a = bb then some a else none
        | _, _ => none := rfl
    rw [hrw, h3m, h3s]
    simp only
    rw [if_pos huv]
  · have hrw : (mkResBlock2D i o s p).fwdShape x4 =
        match T2.shape (mkResBlock2D i o s p).mainPath x4,
          T2.shape (mkResBlock2D i o s p).shortcut x4 with
        | some a, some bb => if a = bb then some a else none
        | _, _ => none := rfl
    rw [hrw, h2m, h2s]
    simp only
    rw [if_pos huv2]

/-- C6 (witness): a 3D block 32 to 64 with stride 2 on input (1, 32, 5, 8, 8)
and a 2D block 32 to 64 with stride 2 on input (1, 32, 8, 8): both paths give
(1, 64, 2, 4, 4) resp. (1, 64, 4, 4), the shortcut is a projection, and the
blocks return those shapes. -/
theorem c6_shortcut_shape_match_witness :
    ((mkResBlock3D 32 64 2 0).downsample = false ↔ (2 : Nat) = 1 ∧ (32 : Nat) = 64) ∧
    ((mkResBlock2D 32 64 2 0).downsample = false ↔ (2 : Nat) = 1 ∧ (32 : Nat) = 64) ∧
    (⟨1, 64, 2, 4, 4⟩ : Shape5) = ⟨1, 64, 2, 4, 4⟩ ∧
    (⟨1, 64, 4, 4⟩ : Shape4) = ⟨1, 64, 4, 4⟩ ∧
    (mkResBlock3D 32 64 2 0).fwdShape ⟨1, 32, 5, 8, 8⟩ = some ⟨1, 64, 2, 4, 4⟩ ∧
    (mkResBlock2D 32 64 2 0).fwdShape ⟨1, 32, 8, 8⟩ = some ⟨1, 64, 4, 4⟩ :=
  c6_shortcut_shape_match 32 64 2 0 ⟨1, 32, 5, 8, 8⟩ ⟨1, 64, 2, 4, 4⟩ ⟨1, 64, 2, 4, 4⟩
    ⟨1, 32, 8, 8⟩ ⟨1, 64, 4, 4⟩ ⟨1, 64, 4, 4⟩ (by decide) (by decide) (by decide) (by decide)

theorem weightPass2d_mem (scale : Nat → ℚ) (noise : Nat → List ℚ) :
    ∀ (ls : List PLayer) (i0 : Nat) (l : PLayer), l ∈ weightPass2d scale noise i0 ls →
      ∃ k orig, orig ∈ ls ∧ l = step2d scale (noise k) orig := by
  intro ls
  induction ls with
  | nil => intro i0 l h; simp [weightPass2d] at h
  | cons a rest ih =>
    intro i0 l h
    simp only [weightPass2d, List.mem_cons] at h
    cases h with
    | inl h => exact ⟨i0, a, List.mem_cons_self a rest, h⟩
    | inr h =>
      obtain ⟨k, orig, horig, hl⟩ := ih (i0 + 1) l h
      exact ⟨k, orig, List.mem_cons_of_mem a horig, hl⟩

theorem weightPass3d_mem (scale : Nat → ℚ) (noise : Nat → List ℚ) :
    ∀ (ls : List PLayer) (i0 : Nat) (l : PLayer), l ∈ weightPass3d scale noise i0 ls →
      ∃ k orig, orig ∈ ls ∧ l = step3d scale (noise k) orig := by
  intro ls
  induction ls with
  | nil => intro i0 l h; simp [weightPass3d] at h
  | cons a rest ih =>
    intro i0 l h
    simp only [weightPass3d, List.mem_cons] at h
    cases h with
    | inl h => exact ⟨i0, a, List.mem_cons_self a rest, h⟩
    | inr h =>
      obtain ⟨k, orig, horig, hl⟩ := ih (i0 + 1) l h
      exact ⟨k, orig, List.mem_cons_of_mem a horig, hl⟩

theorem nonconstant_map_scale (s : ℚ) (hs : s ≠ 0) (l : List ℚ)
    (h : Nonconstant l) : Nonconstant (l.map (fun z => s * z)) := by
  obtain ⟨a, ha, b, hb, hab⟩ := h
  refine ⟨s * a, List.mem_map_of_mem _ ha, s * b, List.mem_map_of_mem _ hb, ?_⟩
  intro he
  exact hab (mul_left_cancel₀ hs he)

/-- C9 (modelled from the spec, since `hybrid/models/utils.py` is not under
`src/`): after the construction-time initialization pass (3D pass then 2D
pass, each visiting every layer of its own population once), every 2D and 3D
normalization layer has all weight parameters equal to 1 and all bias
parameters equal to 0, and every convolution layer carries its fan-in scaled
random draw: weights are the draw multiplied by the (nonzero) scale standing
for sqrt(2 / fan_in), so a draw of nonzero variance gives weights of nonzero
variance (not all zero, not constant). -/
theorem c9_weight_init (scale : Nat → ℚ) (noise3 noise2 : Nat → List ℚ)
    (layers : List PLayer) (l : PLayer)
    (hscale : ∀ f, scale f ≠ 0)
    (hl : l ∈ initWeights scale noise3 noise2 layers) :
    (∀ np, (l = PLayer.norm2d np ∨ l = PLayer.norm3d np) →
      (∀ a ∈ np.weight, a = 1) ∧ (∀ bq ∈ np.bias, bq = 0)) ∧
    (∀ cp, l = PLayer.conv2d cp →
      ∃ k, cp.weight = (noise2 k).map (fun z => scale cp.fan_in * z) ∧
        (Nonconstant (noise2 k) → Nonconstant cp.weight)) ∧
    (∀ cp, l = PLayer.conv3d cp →
      ∃ k, cp.weight = (noise3 k).map (fun z => scale cp.fan_in * z) ∧
        (Nonconstant (noise3 k) → Nonconstant cp.weight)) := by
  unfold initWeights at hl
  obtain ⟨k2, mid, hmid, hl2⟩ := weightPass2d_mem scale noise2 _ 0 l hl
  obtain ⟨k3, orig, horig, hmid3⟩ := weightPass3d_mem scale noise3 layers 0 mid hmid
  subst hl2
  subst hmid3
  cases orig with
  | conv2d cp0 =>
    refine ⟨?_, ?_, ?_⟩
    · intro np hnp
      cases hnp with
      | inl h => simp [step2d, step3d] at h
      | inr h => simp [step2d, step3d] at h
    · intro cp hcp
      simp only [step3d, step2d] at hcp
      injection hcp with hcp
      subst hcp
      refine ⟨k2, rfl, ?_⟩
      exact fun h => nonconstant_map_scale _ (hscale _) _ h
    · intro cp hcp
      simp [step2d, step3d] at hcp
  | norm2d np0 =>
    refine ⟨?_, ?_, ?_⟩
    · intro np hnp
      cases hnp with
      | inl h =>
        simp only [step3d, step2d] at h
        injection h with h
        subst h
        constructor
        · intro a ha
          simp at ha
          exact ha.2
        · intro bq hb
          simp at hb
          exact hb.2
      | inr h => simp [step2d, step3d] at h
    · intro cp hcp
      simp [step2d, step3d] at hcp
    · intro cp hcp
      simp [step2d, step3d] at hcp
  | conv3d cp0 =>
    refine ⟨?_, ?_, ?_⟩
    · intro np hnp
      cases hnp with
      | inl h => simp [step2d, step3d] at h
      | inr h => simp [step2d, step3d] at h
    · intro cp hcp
      simp [step2d, step3d] at hcp
    · intro cp hcp
      simp only [step3d, step2d] at hcp
      injection hcp with hcp
      subst hcp
      refine ⟨k3, rfl, ?_⟩
      exact fun h => nonconstant_map_scale _ (hscale _) _ h
  | norm3d np0 =>
    refine ⟨?_, ?_, ?_⟩
    · intro np hnp
      cases hnp with
      | inl h => simp [step2d, step3d] at h
      | inr h =>
        simp only [step3d, step2d] at h
        injection h with h
        subst h
        constructor
        · intro a ha
          simp at ha
          exact ha.2
        · intro bq hb
          simp at hb
          exact hb.2
    · intro cp hcp
      simp [step2d, step3d] at hcp
    · intro cp hcp
      simp [step2d, step3d] at hcp

/-- C9 (witness): initializing the one-layer module list holding a 2D
normalization layer with weight [5] and bias [7] yields weight [1] and
bias [0]. -/
theorem c9_weight_init_witness :
    (∀ np : NormParams, ((PLayer.norm2d ⟨[1], [0]⟩ : PLayer) = PLayer.norm2d np ∨
        (PLayer.norm2d ⟨[1], [0]⟩ : PLayer) = PLayer.norm3d np) →
      (∀ a ∈ np.weight, a = 1) ∧ (∀ bq ∈ np.bias, bq = 0)) ∧
    (∀ cp : ConvParams, (PLayer.norm2d ⟨[1], [0]⟩ : PLayer) = PLayer.conv2d cp →
      ∃ k : Nat, cp.weight = ([0, 1] : List ℚ).map (fun z => 1 * z) ∧
        (Nonconstant [0, 1] → Nonconstant cp.weight)) ∧
    (∀ cp : ConvParams, (PLayer.norm2d ⟨[1], [0]⟩ : PLayer) = PLayer.conv3d cp →
      ∃ k : Nat, cp.weight = ([2] : List ℚ).map (fun z => 1 * z) ∧
        (Nonconstant [2] → Nonconstant cp.weight)) :=
  c9_weight_init (fun _ => 1) (fun _ => [2]) (fun _ => [0, 1])
    [PLayer.norm2d ⟨[5], [7]⟩] (PLayer.norm2d ⟨[1], [0]⟩) (fun _ => one_ne_zero)
    (by simp [initWeights, weightPass2d, weightPass3d, step2d, step3d])
